import Mathlib

/-!
Shallow embedding of the core of libgit2 (object cache, pack backend,
pack index, revision walker, merge base, diff classification) together
with theorems deciding the specification claims.

Machine integers are modelled as `Nat` (sizes, flags, times) and errors
as an explicit inductive of the snapshot's `GIT_E*` codes.  Fallible C
functions become `Except GitError _`; unbounded C loops take an explicit
fuel argument.
-/

set_option maxRecDepth 4000

/-- Error codes of this libgit2 snapshot (`git2/errors.h`).  `EAMBIGUOUS`
stands for `GIT_EAMBIGUOUSOIDPREFIX`; `ENOTIMPLEMENTED` is the closest
thing the snapshot has to a distinct "unsupported" code. -/
inductive GitError where
  | ERROR
  | ENOTFOUND
  | ENOMEM
  | EOSERR
  | EOBJTYPE
  | EOBJCORRUPTED
  | EPACKCORRUPTED
  | EAMBIGUOUS
  | EREVWALKOVER
  | ENOTIMPLEMENTED
  deriving Repr, DecidableEq

/-! ## Object cache (`src/cache.c`) -/

/-- A cached object header (`git_cached_obj`): oid, object type, size,
store flags and reference count.  OIDs are abstracted to `Nat`. -/
structure CachedObj where
  oid : Nat
  otype : Nat
  size : Nat
  flags : Nat
  refcount : Nat
  deriving Repr, DecidableEq

/-- Modelled from the spec: the store-flag constants live in `cache.h`,
which is not part of the sources; the spec states `flags ∈ {RAW, PARSED}`
and that the flag-agnostic lookup matches any form, so ANY is the zero
value tested by `if (flags && ...)`. -/
def GIT_CACHE_STORE_ANY : Nat := 0

/-- Modelled from the spec: raw store flag (see `GIT_CACHE_STORE_ANY`). -/
def GIT_CACHE_STORE_RAW : Nat := 1

/-- Modelled from the spec: parsed store flag (see `GIT_CACHE_STORE_ANY`). -/
def GIT_CACHE_STORE_PARSED : Nat := 2

/-- The cache (`git_cache`): the khash table is modelled as a list of
slots (khash buckets), `none` meaning an empty bucket.  `kh_end` is the
slot count, `kh_size` the number of occupied slots. -/
structure GitCache where
  slots : List (Option CachedObj)
  used_memory : Nat
  deriving Repr, DecidableEq

def kh_end (cache : GitCache) : Nat := cache.slots.length

def kh_size (cache : GitCache) : Nat :=
  (cache.slots.filter Option.isSome).length

/-- khash lookup by oid: the (unique) occupied slot holding the key. -/
def kh_get (cache : GitCache) (oid : Nat) : Option CachedObj :=
  cache.slots.findSome? (fun s =>
    match s with
    | some e => if e.oid = oid then some e else none
    | none => none)

def git_cached_obj_incref (e : CachedObj) : CachedObj :=
  { e with refcount := e.refcount + 1 }

/-- `git_cached_obj_decref`: decrement the refcount; when it reaches zero
the object is destroyed (`none`). -/
def git_cached_obj_decref (e : CachedObj) : Option CachedObj :=
  if e.refcount - 1 = 0 then none
  else some { e with refcount := e.refcount - 1 }

/-- One pass of the eviction loop body of `cache_evict_entries`: walk
positions `seed, seed+1, ...` modulo `kh_end`; every occupied slot found
is removed from the map and collected (the C code decrefs it on the
spot).  `fuel` bounds the slot probes. -/
def cache_evict_loop :
    Nat → GitCache → Nat → Nat → GitCache × List CachedObj
  | 0, cache, _, _ => (cache, [])
  | _ + 1, cache, _, 0 => (cache, [])
  | fuel + 1, cache, seed, count + 1 =>
    let pos := seed % kh_end cache
    match cache.slots.get? pos with
    | some (some evict) =>
      let cache1 : GitCache :=
        { slots := cache.slots.set pos none,
          used_memory := cache.used_memory - evict.size }
      let rest := cache_evict_loop fuel cache1 (seed + 1) count
      (rest.1, evict :: rest.2)
    | _ => cache_evict_loop fuel cache (seed + 1) (count + 1)

/-- `cache_evict_entries` (`cache.c:46`): bail out when there are not
enough entries, otherwise evict `evict_count` randomly probed entries.
The C `rand()` seed is an explicit argument; `fuel` bounds the probe
loop (the C loop is unbounded but terminates for the same reason any
sufficiently large fuel does). -/
def cache_evict_entries
    (cache : GitCache) (seed evict_count fuel : Nat) :
    GitCache × List CachedObj :=
  if evict_count > kh_size cache then (cache, [])
  else cache_evict_loop fuel cache seed evict_count

/-- `cache_get` (`cache.c:79`): lookup by oid, reject the entry when a
specific store flag is requested and does not match, otherwise hand an
increffed entry to the caller. -/
def cache_get (cache : GitCache) (oid : Nat) (flags : Nat) :
    Option CachedObj :=
  match kh_get cache oid with
  | none => none
  | some entry =>
    if flags ≠ 0 ∧ entry.flags ≠ flags then none
    else some (git_cached_obj_incref entry)

def git_cache_get_raw (cache : GitCache) (oid : Nat) : Option CachedObj :=
  cache_get cache oid GIT_CACHE_STORE_RAW

def git_cache_get_parsed (cache : GitCache) (oid : Nat) : Option CachedObj :=
  cache_get cache oid GIT_CACHE_STORE_PARSED

def git_cache_get_any (cache : GitCache) (oid : Nat) : Option CachedObj :=
  cache_get cache oid GIT_CACHE_STORE_ANY

/-! ## Pack index header check (`src/odb_pack.c`, `pack_index_check`) -/

/-- "\377tOc", the v2+ pack-index signature. -/
def PACK_IDX_SIGNATURE : Nat := 0xff744f63

/-- A mapped `.idx` file: its byte size and its 32-bit words as read
through `ntohl` (word `i` is the big-endian u32 at byte offset `4*i`). -/
structure IdxData where
  size : Nat
  words : Nat → Nat

/-- The modelled platform has a 64-bit `off_t`. -/
def sizeof_off_t : Nat := 8

/-- The fanout loop of `pack_index_check` (`odb_pack.c:299`): 256 fanout
words starting at word `ofs` must be non-decreasing. -/
def fanout_ok (w : Nat → Nat) (ofs : Nat) : Bool :=
  (List.range 255).all (fun i => w (ofs + i) ≤ w (ofs + i + 1))

/-- The part of `pack_index_check` after version detection: fanout
monotonicity and the per-version size formula. -/
def pack_index_check_rest (f : IdxData) (version : Nat) :
    Except GitError (Nat × Nat) :=
  let ofs := if version > 1 then 2 else 0
  if ¬ fanout_ok f.words ofs then .error .EOBJCORRUPTED
  else
    let nr := f.words (ofs + 255)
    if version = 1 then
      if f.size ≠ 4 * 256 + nr * 24 + 20 + 20 then .error .EOBJCORRUPTED
      else .ok (version, nr)
    else
      let min_size := 8 + 4 * 256 + nr * (20 + 4 + 4) + 20 + 20
      let max_size := min_size + (if nr > 0 then (nr - 1) * 8 else 0)
      if f.size < min_size ∨ f.size > max_size then .error .EOBJCORRUPTED
      else if f.size ≠ min_size ∧ sizeof_off_t ≤ 4 then .error .EOSERR
      else .ok (version, nr)

/-- `pack_index_check` (`odb_pack.c:241`), from the point where the file
is mapped (`p_open`/`fstat`/`mmap` failures are I/O, outside the model):
minimum size, version detection — a present signature demands version
exactly 2, anything else is `GIT_EOBJCORRUPTED` — then structure. -/
def pack_index_check (f : IdxData) : Except GitError (Nat × Nat) :=
  if f.size < 4 * 256 + 20 + 20 then .error .EOBJCORRUPTED
  else if f.words 0 = PACK_IDX_SIGNATURE then
    if f.words 1 < 2 ∨ f.words 1 > 2 then .error .EOBJCORRUPTED
    else pack_index_check_rest f (f.words 1)
  else pack_index_check_rest f 1

/-! ## Pack backend (`src/odb_pack.c`)

OIDs are nibble sequences (`List Nat`); a pack's index is its entry list
in file order; file names are structured `(base, extension)` pairs, so
the `.idx`/`.pack`/`.keep` suffix surgery of the C code becomes field
selection. A `pack_file` pointer is identified by its `base` (the load
callback keeps bases unique in the vector). -/

inductive FExt where
  | idx
  | pack
  | keep
  | other
  deriving Repr, DecidableEq

/-- A file name, as `<base>.<ext>`. -/
structure FName where
  base : Nat
  ext : FExt
  deriving Repr, DecidableEq

/-- `struct pack_file`: identity (`base`), stat data, and the index
entries.  `open_ok` abstracts "the backing `.pack` still exists and
verifies" (`packfile_open`). -/
structure PackFileM where
  base : Nat
  mtime : Nat
  pack_local : Bool
  pack_keep : Bool
  entries : List (List Nat)
  bad_objects : List (List Nat)
  open_ok : Bool
  deriving Repr, DecidableEq

/-- `struct pack_backend`. -/
structure PackBackend where
  packs : List PackFileM
  last_found : Option Nat
  pack_folder : Option Nat
  pack_folder_mtime : Nat
  deriving Repr, DecidableEq

/-- The filesystem as the pack backend observes it. -/
structure Fs where
  folder_ok : Bool
  folder_mtime : Nat
  files : List FName
  pack_exists : Nat → Bool
  pack_mtime : Nat → Nat
  keep_exists : Nat → Bool
  pack_entries : Nat → List (List Nat)

/-- `packfile_sort__cb` (`odb_pack.c:389`) as a ≤ test: `a` sorts no
later than `b` iff the comparator is ≤ 0 — local packs first, then
younger (larger mtime) first. -/
def packfile_sort_le (a b : PackFileM) : Bool :=
  if a.pack_local ≠ b.pack_local then a.pack_local
  else b.mtime ≤ a.mtime

/-- `packfile_check` (`odb_pack.c:517`): require a regular `.pack` next
to the index, record size/mtime/keep; the pack is not opened yet. -/
def packfile_check (fs : Fs) (base : Nat) : Except GitError PackFileM :=
  if ¬ fs.pack_exists base then .error .ENOTFOUND
  else .ok
    { base := base
      mtime := fs.pack_mtime base
      pack_local := true
      pack_keep := fs.keep_exists base
      entries := fs.pack_entries base
      bad_objects := []
      open_ok := true }

/-- `packfile_load__cb` (`odb_pack.c:565`): ignore non-`.idx` names,
skip packs already in the vector (same base name), otherwise check and
append the new pack. -/
def packfile_load__cb (fs : Fs) (backend : PackBackend) (path : FName) :
    Except GitError PackBackend :=
  if path.ext ≠ FExt.idx then .ok backend
  else if backend.packs.any (fun p => p.base = path.base) then .ok backend
  else
    match packfile_check fs path.base with
    | .error e => .error e
    | .ok p => .ok { backend with packs := backend.packs ++ [p] }

/-- `git_futils_direach` over the pack folder, feeding every directory
entry to `packfile_load__cb`; the first callback error aborts. -/
def pack_dirent_loop (fs : Fs) :
    PackBackend → List FName → Except GitError PackBackend
  | b, [] => .ok b
  | b, f :: rest =>
    match packfile_load__cb fs b f with
    | .error e => .error e
    | .ok b1 => pack_dirent_loop fs b1 rest

/-- `packfile_refresh_all` (`odb_pack.c:593`): nothing to do without a
pack folder; stat it; if the directory mtime differs from the remembered
one, rerun the directory scan, re-sort the vector and remember the new
mtime — otherwise leave the pack collection alone. -/
def packfile_refresh_all (fs : Fs) (backend : PackBackend) :
    Except GitError PackBackend :=
  match backend.pack_folder with
  | none => .ok backend
  | some _ =>
    if ¬ fs.folder_ok then .error .ENOTFOUND
    else if fs.folder_mtime ≠ backend.pack_folder_mtime then
      match pack_dirent_loop fs backend fs.files with
      | .error e => .error e
      | .ok b1 => .ok
          { b1 with
            packs := b1.packs.mergeSort packfile_sort_le
            pack_folder_mtime := fs.folder_mtime }
    else .ok backend

/-- `git_oid_ncmp` as used on index entries: equality of the first
`len` nibbles. -/
def oid_npfx_match (short full : List Nat) (len : Nat) : Bool :=
  short.take len = full.take len

def GIT_OID_HEXSZ : Nat := 40

/-- A pack entry as returned by the search (`struct pack_entry`): the
offset (modelled as the index position), the owning pack's base and the
full oid. -/
structure PackEntry where
  offset : Nat
  p_base : Nat
  sha1 : List Nat
  deriving Repr, DecidableEq

/-- `pack_entry_find_offset` (`odb_pack.c:651`).  The binary search
`sha1_entry_pos` (in `sha1_lookup.c`, not among the sources) lands on
the first index entry matching the zero-padded short oid; the code then
declares the prefix ambiguous within the pack iff the *next* entry also
matches.  Offsets are index positions (`nth_packed_object_offset`). -/
def pack_entry_find_offset
    (p : PackFileM) (short : List Nat) (len : Nat) :
    Except GitError (Nat × List Nat) :=
  match p.entries.findIdx? (fun o => oid_npfx_match short o len) with
  | none => .error .ENOTFOUND
  | some pos =>
    if pos + 1 < p.entries.length ∧
        oid_npfx_match short (p.entries.getD (pos + 1) []) len then
      .error .EAMBIGUOUS
    else .ok (pos, p.entries.getD pos [])

/-- `pack_entry_find1` (`odb_pack.c:746`): bad-object list (full-length
queries only), offset search, then make sure the packfile still opens. -/
def pack_entry_find1
    (p : PackFileM) (short : List Nat) (len : Nat) :
    Except GitError PackEntry :=
  if len = GIT_OID_HEXSZ ∧ short ∈ p.bad_objects then .error .ERROR
  else
    match pack_entry_find_offset p short len with
    | .error e => .error e
    | .ok (offset, found_oid) =>
      if ¬ p.open_ok then .error .EOSERR
      else .ok ⟨offset, p.base, found_oid⟩

/-- The pack loop of `pack_entry_find_prefix` (`odb_pack.c:832`): walk
all packs, skipping the one the (current) `last_found` pointer names;
an in-pack ambiguity aborts; a success bumps `found`, breaking once a
second pack matched; other errors are swallowed.  Returns the final
`(found, entry, last_found)`. -/
def pack_entry_find_pfx_loop (short : List Nat) (len : Nat) :
    List PackFileM → Nat → Option PackEntry → Option Nat →
    Except GitError (Nat × Option PackEntry × Option Nat)
  | [], found, e, lf => .ok (found, e, lf)
  | p :: rest, found, e, lf =>
    if lf = some p.base then
      pack_entry_find_pfx_loop short len rest found e lf
    else
      match pack_entry_find1 p short len with
      | .error .EAMBIGUOUS => .error .EAMBIGUOUS
      | .ok entry =>
        if found + 1 > 1 then .ok (found + 1, some entry, lf)
        else pack_entry_find_pfx_loop short len rest
          (found + 1) (some entry) (some p.base)
      | .error _ => pack_entry_find_pfx_loop short len rest found e lf

/-- Turn the loop outcome into the result of `pack_entry_find_prefix`:
no match is `GIT_ENOTFOUND`, more than one is ambiguous. -/
def pack_entry_find_pfx_final
    (r : Except GitError (Nat × Option PackEntry × Option Nat)) :
    Except GitError (PackEntry × Option Nat) :=
  match r with
  | .error e => .error e
  | .ok (found, e, lf) =>
    if found = 0 then .error .ENOTFOUND
    else if found > 1 then .error .EAMBIGUOUS
    else
      match e with
      | some entry => .ok (entry, lf)
      | none => .error .ENOTFOUND

/-- `pack_entry_find_prefix` (`odb_pack.c:810`; final `x` for the token
rules): refresh, fast-path probe of the `last_found` pack, then the pack
loop.  A success also returns the updated `last_found`. -/
def pack_entry_find_pfx
    (fs : Fs) (backend : PackBackend) (short : List Nat) (len : Nat) :
    Except GitError (PackEntry × PackBackend) :=
  match packfile_refresh_all fs backend with
  | .error e => .error e
  | .ok b =>
    let fast : Except GitError (Nat × Option PackEntry) :=
      match b.last_found.bind
          (fun lfb => b.packs.find? (fun p => p.base = lfb)) with
      | none => .ok (0, none)
      | some p =>
        match pack_entry_find1 p short len with
        | .error .EAMBIGUOUS => .error .EAMBIGUOUS
        | .ok entry => .ok (1, some entry)
        | .error _ => .ok (0, none)
    match fast with
    | .error e => .error e
    | .ok (found0, e0) =>
      match pack_entry_find_pfx_final
          (pack_entry_find_pfx_loop short len b.packs found0 e0
            b.last_found) with
      | .error e => .error e
      | .ok (entry, lf) => .ok (entry, { b with last_found := lf })

/-- Number of index entries of pack `p` matching the prefix. -/
def pfx_count (p : PackFileM) (short : List Nat) (len : Nat) : Nat :=
  (p.entries.filter (fun o => oid_npfx_match short o len)).length

/-- The sorted-index invariant, as the search needs it: the entries
matching a prefix form one contiguous run. -/
def ContigMatches (p : PackFileM) (short : List Nat) (len : Nat) : Prop :=
  ∃ a b c, p.entries = a ++ b ++ c ∧
    (∀ o ∈ a, oid_npfx_match short o len = false) ∧
    (∀ o ∈ b, oid_npfx_match short o len = true) ∧
    (∀ o ∈ c, oid_npfx_match short o len = false)


/-! ## Revision walker (`src/revwalk.c`)

Commits are interned in the walker's oid-keyed table; the C arena
pointers become oids.  The ODB is a function from oid to object; for a
commit object it directly yields the parsed parent list and committer
time (`commit_quick_parse` reads exactly these two things out of the
raw buffer). -/

/-- The 4-bit merge-base flag field (`revwalk.c:18` / `commit_object.flags`),
one Bool per bit; bit masks become records and the C `&`/`|` become
`mb_and`/`mb_or`. -/
structure MBFlags where
  parent1 : Bool
  parent2 : Bool
  result : Bool
  stale : Bool
  deriving Repr, DecidableEq

def mb_zero : MBFlags := ⟨false, false, false, false⟩

def PARENT1 : MBFlags := ⟨true, false, false, false⟩

def PARENT2 : MBFlags := ⟨false, true, false, false⟩

def RESULT : MBFlags := ⟨false, false, true, false⟩

def STALE : MBFlags := ⟨false, false, false, true⟩

/-- Bitwise and on the flag field. -/
def mb_and (a b : MBFlags) : MBFlags :=
  ⟨a.parent1 && b.parent1, a.parent2 && b.parent2,
   a.result && b.result, a.stale && b.stale⟩

/-- Bitwise or on the flag field. -/
def mb_or (a b : MBFlags) : MBFlags :=
  ⟨a.parent1 || b.parent1, a.parent2 || b.parent2,
   a.result || b.result, a.stale || b.stale⟩

/-- Per-commit scratch state (`commit_object`, `revwalk.c:23`). -/
structure CommitObject where
  oid : Nat
  time : Nat
  seen : Bool
  uninteresting : Bool
  topo_delay : Bool
  parsed : Bool
  flags : MBFlags
  in_degree : Nat
  parents : List Nat
  deriving Repr, DecidableEq

/-- A freshly interned commit (`alloc_commit` zeroes the chunk). -/
def freshCommit (oid : Nat) : CommitObject :=
  ⟨oid, 0, false, false, false, false, mb_zero, 0, []⟩

inductive OType where
  | commit
  | tree
  | blob
  | tag
  deriving Repr, DecidableEq

/-- An object as `git_odb_read` plus `commit_quick_parse` deliver it. -/
structure OdbObj where
  otype : OType
  parents : List Nat
  time : Nat
  deriving Repr, DecidableEq

def Odb : Type := Nat → Option OdbObj

/-- `git_revwalk` (`revwalk.c:43`); the `get_next`/`enqueue` function
pointers are represented by the three sorting bits. -/
structure Revwalk where
  commits : List (Nat × CommitObject)
  iterator_topo : List Nat
  iterator_rand : List Nat
  iterator_reverse : List Nat
  iterator_time : List (Nat × Nat)
  one : Option Nat
  twos : List Nat
  walking : Bool
  sort_time : Bool
  sort_topo : Bool
  sort_reverse : Bool
  deriving Repr, DecidableEq

def lookupCommit (walk : Revwalk) (oid : Nat) : Option CommitObject :=
  (walk.commits.find? (fun pr => pr.1 = oid)).map Prod.snd

def getCommit (walk : Revwalk) (oid : Nat) : CommitObject :=
  (lookupCommit walk oid).getD (freshCommit oid)

def setCommit (walk : Revwalk) (oid : Nat) (c : CommitObject) : Revwalk :=
  { walk with commits :=
      walk.commits.map (fun pr => if pr.1 = oid then (oid, c) else pr) }

/-- `commit_lookup` (`revwalk.c:175`): intern the oid if new. -/
def commit_lookup (walk : Revwalk) (oid : Nat) : Revwalk × Nat :=
  match lookupCommit walk oid with
  | some _ => (walk, oid)
  | none =>
    ({ walk with commits := walk.commits ++ [(oid, freshCommit oid)] }, oid)

/-- `commit_parse` (`revwalk.c:250`): read the object, require a commit
(`GIT_EOBJTYPE` otherwise), then `commit_quick_parse` interns the
parents and records parents/time. -/
def commit_parse (odb : Odb) (walk : Revwalk) (oid : Nat) :
    Except GitError Revwalk :=
  match lookupCommit walk oid with
  | none => .error .ENOTFOUND
  | some c =>
    if c.parsed then .ok walk
    else
      match odb oid with
      | none => .error .ENOTFOUND
      | some obj =>
        if obj.otype ≠ OType.commit then .error .EOBJTYPE
        else
          let walk1 := obj.parents.foldl
            (fun w poid => (commit_lookup w poid).1) walk
          .ok (setCommit walk1 oid
            { c with parents := obj.parents, time := obj.time,
                     parsed := true })

/-- `mark_uninteresting` (`revwalk.c:410`), with fuel for the recursion
over the (finite, acyclic) ancestor graph. -/
def mark_uninteresting : Nat → Revwalk → Nat → Revwalk
  | 0, walk, _ => walk
  | fuel + 1, walk, oid =>
    let c := getCommit walk oid
    let walk1 := setCommit walk oid { c with uninteresting := true }
    if mb_and c.flags (mb_or RESULT STALE) = RESULT then walk1
    else
      c.parents.foldl
        (fun w poid =>
          if (getCommit w poid).uninteresting then w
          else mark_uninteresting fuel w poid)
        walk1

/-- Modelled from the spec: the priority queue (`pqueue.c` is not among
the sources); "TIME — priority queue by committer time, newest first".
Entries are `(oid, time)` pairs; pop takes the head. -/
def git_pqueue_insert : List (Nat × Nat) → (Nat × Nat) → List (Nat × Nat)
  | [], e => [e]
  | x :: xs, e => if x.2 < e.2 then e :: x :: xs
                  else x :: git_pqueue_insert xs e

/-- The `enqueue` function pointer: `revwalk_enqueue_timesort` or
`revwalk_enqueue_unsorted` (`revwalk.c:600`). -/
def revwalk_enqueue (walk : Revwalk) (oid : Nat) : Revwalk :=
  if walk.sort_time then
    { walk with iterator_time :=
        git_pqueue_insert walk.iterator_time (oid, (getCommit walk oid).time) }
  else
    { walk with iterator_rand := oid :: walk.iterator_rand }

/-- `process_commit` (`revwalk.c:426`). -/
def process_commit (odb : Odb) (fuel : Nat) (walk : Revwalk) (oid : Nat)
    (hide : Bool) : Except GitError Revwalk :=
  let walk := if hide then mark_uninteresting fuel walk oid else walk
  let c := getCommit walk oid
  if c.seen then .ok walk
  else
    let walk := setCommit walk oid { c with seen := true }
    match commit_parse odb walk oid with
    | .error e => .error e
    | .ok walk => .ok (revwalk_enqueue walk oid)

/-- `process_commit_parents` (`revwalk.c:444`). -/
def process_commit_parents (odb : Odb) (fuel : Nat) (walk : Revwalk)
    (oid : Nat) : Except GitError Revwalk :=
  (getCommit walk oid).parents.foldlM
    (fun w poid => process_commit odb fuel w poid
      (getCommit w oid).uninteresting)
    walk

/-- `revwalk_next_timesort` (`revwalk.c:610`): pop the newest commit,
process its parents, skip uninteresting ones. -/
def revwalk_next_timesort (odb : Odb) (fuel : Nat) :
    Nat → Revwalk → Except GitError (Nat × Revwalk)
  | 0, _ => .error .ERROR
  | lf + 1, walk =>
    match walk.iterator_time with
    | [] => .error .EREVWALKOVER
    | (oid, _) :: restq =>
      let walk := { walk with iterator_time := restq }
      match process_commit_parents odb fuel walk oid with
      | .error e => .error e
      | .ok walk =>
        if (getCommit walk oid).uninteresting then
          revwalk_next_timesort odb fuel lf walk
        else .ok (oid, walk)

/-- `revwalk_next_unsorted` (`revwalk.c:628`). -/
def revwalk_next_unsorted (odb : Odb) (fuel : Nat) :
    Nat → Revwalk → Except GitError (Nat × Revwalk)
  | 0, _ => .error .ERROR
  | lf + 1, walk =>
    match walk.iterator_rand with
    | [] => .error .EREVWALKOVER
    | oid :: restq =>
      let walk := { walk with iterator_rand := restq }
      match process_commit_parents odb fuel walk oid with
      | .error e => .error e
      | .ok walk =>
        if (getCommit walk oid).uninteresting then
          revwalk_next_unsorted odb fuel lf walk
        else .ok (oid, walk)

/-- `revwalk_next_toposort` (`revwalk.c:646`). -/
def revwalk_next_toposort : Nat → Revwalk → Except GitError (Nat × Revwalk)
  | 0, _ => .error .ERROR
  | lf + 1, walk =>
    match walk.iterator_topo with
    | [] => .error .EREVWALKOVER
    | oid :: rest =>
      let walk := { walk with iterator_topo := rest }
      let c := getCommit walk oid
      if c.in_degree > 0 then
        revwalk_next_toposort lf
          (setCommit walk oid { c with topo_delay := true })
      else
        let walk := c.parents.foldl
          (fun w poid =>
            let p := getCommit w poid
            if p.in_degree - 1 = 0 ∧ p.topo_delay then
              let w1 := setCommit w poid
                { p with in_degree := p.in_degree - 1, topo_delay := false }
              { w1 with iterator_topo := poid :: w1.iterator_topo }
            else setCommit w poid { p with in_degree := p.in_degree - 1 })
          walk
        .ok (oid, walk)

/-- `revwalk_next_reverse` (`revwalk.c:676`). -/
def revwalk_next_reverse (walk : Revwalk) :
    Except GitError (Nat × Revwalk) :=
  match walk.iterator_reverse with
  | [] => .error .EREVWALKOVER
  | oid :: rest => .ok (oid, { walk with iterator_reverse := rest })

/-- `commit_time_cmp` (`revwalk.c:68`): note that it returns the
*boolean* `a->time < b->time` as an int — 1 or 0, never negative. -/
def commit_time_cmp (a b : CommitObject) : Int :=
  if a.time < b.time then 1 else 0

/-- `commit_list_insert_by_date` (`revwalk.c:88`): insert before the
first element whose comparator result is negative.  Since
`commit_time_cmp` never returns a negative value, this in fact always
appends (see `commit_list_insert_by_date_appends`). -/
def commit_list_insert_by_date (walk : Revwalk) (item : Nat) :
    List Nat → List Nat
  | [] => [item]
  | p :: rest =>
    if commit_time_cmp (getCommit walk p) (getCommit walk item) < 0 then
      item :: p :: rest
    else p :: commit_list_insert_by_date walk item rest

/-- `interesting` (`revwalk.c:271`): is any list entry non-STALE? -/
def interesting (walk : Revwalk) : List Nat → Bool
  | [] => false
  | oid :: rest =>
    if mb_and (getCommit walk oid).flags STALE ≠ mb_zero then
      interesting walk rest
    else true

/-- The while loop of `merge_bases_many` (`revwalk.c:313`): while a
non-STALE commit remains, pop the head, record two-flagged commits as
RESULTs (staling their ancestry), and propagate flags to parents. -/
def merge_bases_loop (odb : Odb) :
    Nat → Revwalk → List Nat → List Nat →
    Except GitError (Revwalk × List Nat)
  | 0, _, _, _ => .error .ERROR
  | fuel + 1, walk, list, result =>
    if ¬ interesting walk list then .ok (walk, result)
    else
      match list with
      | [] => .ok (walk, result)
      | oid :: rest =>
        let c := getCommit walk oid
        let flags0 := mb_and c.flags (mb_or (mb_or PARENT1 PARENT2) STALE)
        let wrf : Revwalk × List Nat × MBFlags :=
          if flags0 = mb_or PARENT1 PARENT2 then
            if mb_and c.flags RESULT = mb_zero then
              let walk1 := setCommit walk oid
                { c with flags := mb_or c.flags RESULT }
              (walk1, commit_list_insert_by_date walk1 oid result,
                mb_or flags0 STALE)
            else (walk, result, mb_or flags0 STALE)
          else (walk, result, flags0)
        let walk1 := wrf.1
        let result1 := wrf.2.1
        let flags1 := wrf.2.2
        let step : Except GitError (Revwalk × List Nat) :=
          c.parents.foldlM
            (fun (wl : Revwalk × List Nat) poid =>
              let w := wl.1
              let p := getCommit w poid
              if mb_and p.flags flags1 = flags1 then .ok wl
              else
                match commit_parse odb w poid with
                | .error e => .error e
                | .ok w =>
                  let p := getCommit w poid
                  let w := setCommit w poid
                    { p with flags := mb_or p.flags flags1 }
                  .ok (w, commit_list_insert_by_date w poid wl.2))
            (walk1, rest)
        match step with
        | .error e => .error e
        | .ok (walk2, list2) =>
          merge_bases_loop odb fuel walk2 list2 result1

/-- `merge_bases_many` (`revwalk.c:285`).  Note: the parse result of
each `two` is discarded by the C code (line 306). -/
def merge_bases_many (odb : Odb) (fuel : Nat) (walk : Revwalk)
    (one : Nat) (twos : List Nat) :
    Except GitError (Revwalk × List Nat) :=
  if twos.contains one then .ok (walk, [one])
  else
    match commit_parse odb walk one with
    | .error e => .error e
    | .ok walk =>
      let c1 := getCommit walk one
      let walk := setCommit walk one { c1 with flags := mb_or c1.flags PARENT1 }
      let start : Revwalk × List Nat := twos.foldl
        (fun (wl : Revwalk × List Nat) two =>
          let w := match commit_parse odb wl.1 two with
            | .ok w1 => w1
            | .error _ => wl.1
          let t := getCommit w two
          let w := setCommit w two { t with flags := mb_or t.flags PARENT2 }
          (w, commit_list_insert_by_date w two wl.2))
        (walk, [one])
      match merge_bases_loop odb fuel start.1 start.2 [] with
      | .error e => .error e
      | .ok (walk, result) =>
        let final := result.foldl
          (fun acc oid =>
            if mb_and (getCommit walk oid).flags STALE = mb_zero then
              commit_list_insert_by_date walk oid acc
            else acc)
          []
        .ok (walk, final)

/-- A fresh walker (`git_revwalk_new`, `revwalk.c:745`): default
iteration is unsorted. -/
def git_revwalk_new : Revwalk :=
  ⟨[], [], [], [], [], none, [], false, false, false, false⟩

/-- `git_merge_base` (`revwalk.c:367`): fresh walker, intern `two` then
`one`, run `merge_bases_many` and return the head of the result list. -/
def git_merge_base (odb : Odb) (fuel : Nat) (one two : Nat) :
    Except GitError Nat :=
  let walk := git_revwalk_new
  let w2 := commit_lookup walk two
  let w1 := commit_lookup w2.1 one
  match merge_bases_many odb fuel w1.1 w1.2 [w2.2] with
  | .error e => .error e
  | .ok (_, result) =>
    match result with
    | [] => .error .ENOTFOUND
    | r :: _ => .ok r

/-- `push_commit` (`revwalk.c:456`). -/
def push_commit (walk : Revwalk) (oid : Nat) (uninteresting : Bool) :
    Except GitError Revwalk :=
  let wl := commit_lookup walk oid
  let walk := wl.1
  let c := getCommit walk oid
  let walk := setCommit walk oid { c with uninteresting := uninteresting }
  if walk.one = none ∧ uninteresting = false then
    .ok { walk with one := some oid }
  else .ok { walk with twos := walk.twos ++ [oid] }

def git_revwalk_push (walk : Revwalk) (oid : Nat) :
    Except GitError Revwalk :=
  push_commit walk oid false

def git_revwalk_hide (walk : Revwalk) (oid : Nat) :
    Except GitError Revwalk :=
  push_commit walk oid true

/-- `git_revwalk_reset` (`revwalk.c:865`): clear `seen`, `in_degree`,
`topo_delay` and `uninteresting` on every interned commit, drop all
iterator state and stop walking.  (The merge-base `flags` nibble and
`parsed` are left untouched — exactly as in the C loop.) -/
def git_revwalk_reset (walk : Revwalk) : Revwalk :=
  { walk with
    commits := walk.commits.map
      (fun pr => (pr.1,
        { pr.2 with seen := false, in_degree := 0, topo_delay := false,
                    uninteresting := false })),
    iterator_time := [],
    iterator_topo := [],
    iterator_rand := [],
    iterator_reverse := [],
    walking := false }

/-- `git_revwalk_sorting` (`revwalk.c:821`). -/
def git_revwalk_sorting (walk : Revwalk)
    (time topo rev : Bool) : Revwalk :=
  let walk := if walk.walking then git_revwalk_reset walk else walk
  { walk with sort_time := time, sort_topo := topo, sort_reverse := rev }

/-- The `get_next` in force before the topological/reverse overrides. -/
def revwalk_get_next_pre (odb : Odb) (fuel : Nat) (walk : Revwalk) :
    Except GitError (Nat × Revwalk) :=
  if walk.sort_time then revwalk_next_timesort odb fuel fuel walk
  else revwalk_next_unsorted odb fuel fuel walk

/-- The topological drain of `prepare_walk` (`revwalk.c:706`). -/
def topo_drain (odb : Odb) :
    Nat → Nat → Revwalk → Except GitError Revwalk
  | 0, _, _ => .error .ERROR
  | dfuel + 1, fuel, walk =>
    match revwalk_get_next_pre odb fuel walk with
    | .error .EREVWALKOVER => .ok walk
    | .error e => .error e
    | .ok (oid, walk) =>
      let c := getCommit walk oid
      let walk := c.parents.foldl
        (fun w poid =>
          let p := getCommit w poid
          setCommit w poid { p with in_degree := p.in_degree + 1 })
        walk
      topo_drain odb dfuel fuel
        { walk with iterator_topo := oid :: walk.iterator_topo }

/-- The reverse drain of `prepare_walk` (`revwalk.c:725`). -/
def reverse_drain (odb : Odb) :
    Nat → Nat → Revwalk → Except GitError Revwalk
  | 0, _, _ => .error .ERROR
  | dfuel + 1, fuel, walk =>
    match (if walk.sort_topo then revwalk_next_toposort fuel walk
           else revwalk_get_next_pre odb fuel walk) with
    | .error .EREVWALKOVER => .ok walk
    | .error e => .error e
    | .ok (oid, walk) =>
      reverse_drain odb dfuel fuel
        { walk with iterator_reverse := oid :: walk.iterator_reverse }

/-- `prepare_walk` (`revwalk.c:683`).  A walk with nothing pushed would
dereference a null `one` in C; the model returns `GIT_ERROR`. -/
def prepare_walk (odb : Odb) (fuel : Nat) (walk : Revwalk) :
    Except GitError Revwalk :=
  match walk.one with
  | none => .error .ERROR
  | some one =>
    match merge_bases_many odb fuel walk one walk.twos with
    | .error e => .error e
    | .ok (walk, _) =>
      match process_commit odb fuel walk one
          (getCommit walk one).uninteresting with
      | .error e => .error e
      | .ok walk =>
        match walk.twos.foldlM
            (fun w two => process_commit odb fuel w two
              (getCommit w two).uninteresting) walk with
        | .error e => .error e
        | .ok walk =>
          match (if walk.sort_topo then topo_drain odb fuel fuel walk
                 else .ok walk) with
          | .error e => .error e
          | .ok walk =>
            match (if walk.sort_reverse then reverse_drain odb fuel fuel walk
                   else .ok walk) with
            | .error e => .error e
            | .ok walk => .ok { walk with walking := true }

/-- The `get_next` pointer after `prepare_walk` installed overrides. -/
def walk_get_next (odb : Odb) (fuel : Nat) (walk : Revwalk) :
    Except GitError (Nat × Revwalk) :=
  if walk.sort_reverse then revwalk_next_reverse walk
  else if walk.sort_topo then revwalk_next_toposort fuel walk
  else revwalk_get_next_pre odb fuel walk

/-- `git_revwalk_next` (`revwalk.c:839`): prepare on first use; on
`GIT_EREVWALKOVER` the walker is reset.  Returns the yielded oid (or
error) together with the post-call walker state. -/
def git_revwalk_next (odb : Odb) (fuel : Nat) (walk : Revwalk) :
    Except GitError Nat × Revwalk :=
  match (if ¬ walk.walking then prepare_walk odb fuel walk
         else .ok walk) with
  | .error e => (.error e, walk)
  | .ok walk =>
    match walk_get_next odb fuel walk with
    | .error .EREVWALKOVER => (.error .EREVWALKOVER, git_revwalk_reset walk)
    | .error e => (.error e, walk)
    | .ok (oid, walk) => (.ok oid, walk)

/-- Drive `git_revwalk_next` until it stops: the yielded oids in order
and the terminating error code. -/
def revwalk_collect (odb : Odb) (fuel : Nat) :
    Nat → Revwalk → List Nat × GitError
  | 0, _ => ([], .ERROR)
  | n + 1, walk =>
    match git_revwalk_next odb fuel walk with
    | (.ok oid, walk) =>
      let r := revwalk_collect odb fuel n walk
      (oid :: r.1, r.2)
    | (.error e, _) => ([], e)

/-- The linear three-commit history of the spec scenario: commit 1 has
no parent, 2 has parent 1, 3 has parent 2, with times `t1, t2, t3`. -/
def linear3 (t1 t2 t3 : Nat) : Odb := fun oid =>
  if oid = 1 then some ⟨OType.commit, [], t1⟩
  else if oid = 2 then some ⟨OType.commit, [1], t2⟩
  else if oid = 3 then some ⟨OType.commit, [2], t3⟩
  else none

/-- The criss-cross graph for the merge-base claim: tips 5 and 6, one
common ancestor 1 (time 10, reached directly) and another, 2 (time 20,
reached through 3 and 4); 1 and 2 are incomparable, so both are merge
bases. -/
def crisscross : Odb := fun oid =>
  if oid = 1 then some ⟨OType.commit, [], 10⟩
  else if oid = 2 then some ⟨OType.commit, [], 20⟩
  else if oid = 3 then some ⟨OType.commit, [2], 50⟩
  else if oid = 4 then some ⟨OType.commit, [2], 51⟩
  else if oid = 5 then some ⟨OType.commit, [1, 3], 100⟩
  else if oid = 6 then some ⟨OType.commit, [1, 4], 101⟩
  else none

/-- The interned-commit shape shared by every stage of the linear
scenario: parsed, carrying the PARENT1 flag that the merge-base
pre-pass of `prepare_walk` leaves behind. -/
def linC (oid time : Nat) (seen : Bool) (parents : List Nat) : CommitObject :=
  ⟨oid, time, seen, false, false, true, PARENT1, 0, parents⟩

/-- The walker right after pushing commit 3 with TIME sorting
(`rev` is the REVERSE bit). -/
def linW0 (rev : Bool) : Revwalk :=
  ⟨[(3, freshCommit 3)], [], [], [], [], some 3, [], false, true, false, rev⟩

/-- The walker midway through the merge-base pre-pass of the linear
scenario: commit 3 parsed and PARENT1-flagged, commit 2 still fresh. -/
def linM0 (t3 : Nat) (rev : Bool) : Revwalk :=
  ⟨[(3, linC 3 t3 false [2]), (2, freshCommit 2)], [], [], [], [],
    some 3, [], false, true, false, rev⟩

/-- One merge-base loop iteration later: commit 2 parsed and flagged,
commit 1 still fresh. -/
def linM1 (t2 t3 : Nat) (rev : Bool) : Revwalk :=
  ⟨[(3, linC 3 t3 false [2]), (2, linC 2 t2 false [1]), (1, freshCommit 1)],
    [], [], [], [], some 3, [], false, true, false, rev⟩

/-- The walker states the linear walk passes through once all three
commits are interned: `s1 s2 s3` are the seen bits, `pq` the time
queue, `rl` the reverse iterator. -/
def linWmid (t1 t2 t3 : Nat) (s1 s2 s3 : Bool) (pq : List (Nat × Nat))
    (rl : List Nat) (walking rev : Bool) : Revwalk :=
  ⟨[(3, linC 3 t3 s3 [2]), (2, linC 2 t2 s2 [1]), (1, linC 1 t1 s1 [])],
    [], [], rl, pq, some 3, [], walking, true, false, rev⟩

/-- Modelled from the spec and `sys/stat.h` (not among the sources):
the file-type field of `st_mode` is its bits 12-15, written
arithmetically instead of with a bitwise mask. -/
def mode_type_bits (m : Nat) : Nat := m / 4096 % 16 * 4096

/-- `S_ISLNK`: symbolic link, type `0o12`. -/
def S_ISLNK (m : Nat) : Bool := mode_type_bits m = 0o120000

/-- `S_ISREG`: regular file, type `0o10`. -/
def S_ISREG (m : Nat) : Bool := mode_type_bits m = 0o100000

/-- `S_ISGITLINK`: submodule entry, type `0o16`. -/
def S_ISGITLINK (m : Nat) : Bool := mode_type_bits m = 0o160000

/-- Modelled from the spec: `GIT_MODE_TYPE` of the missing `diff.h`
drops the nine permission bits (`mode & ~0777`). -/
def GIT_MODE_TYPE (m : Nat) : Nat := m - m % 512

/-- `mode & ~EXEC_BIT_MASK` with `EXEC_BIT_MASK = 0000111`
(`diff.c:401`): clear the three execute-permission bits, written
arithmetically bit by bit. -/
def clearExecBits (m : Nat) : Nat :=
  m - m % 2 - m / 8 % 2 * 8 - m / 64 % 2 * 64

/-- Modelled from the spec: the `GIT_DIFFCAPS_*` capability bits of the
missing `diff.h`, as booleans (`diff.c` only ever tests one bit at a
time). -/
structure DiffCaps where
  has_symlinks : Bool
  assume_unchanged : Bool
  trust_exec_bit : Bool
  trust_ctime : Bool
  use_dev : Bool
  deriving Repr, DecidableEq

/-- Modelled from the spec: the two `flags_extended` index-entry bits
`maybe_modified` reads (`GIT_IDXENTRY_INTENT_TO_ADD`,
`GIT_IDXENTRY_SKIP_WORKTREE` of the missing `index.h`). -/
structure IdxExtFlags where
  intent_to_add : Bool
  skip_worktree : Bool
  deriving Repr, DecidableEq

/-- A `git_index_entry` as `maybe_modified` consumes it; the OID is a
`Nat` with `0` encoding the all-zero OID (`git_oid_iszero`), the path
an opaque key. -/
structure IndexEntry where
  mode : Nat
  oid : Nat
  file_size : Nat
  ctime_seconds : Nat
  mtime_seconds : Nat
  dev : Nat
  ino : Nat
  uid : Nat
  gid : Nat
  flags_ext : IdxExtFlags
  path : Nat
  deriving Repr, DecidableEq

/-- The two delta statuses `maybe_modified` can assign (`git_delta_t`
restricted to the values reachable there). -/
inductive GitDelta where
  | UNMODIFIED
  | MODIFIED
  deriving Repr, DecidableEq

/-- Outcome of `maybe_modified`: skipped by pathspec, split into
DELETED + ADDED on a type change, classified (via
`diff_delta__from_two`), or failed. -/
inductive MMOut where
  | skipped
  | typechange
  | classified (status : GitDelta)
  | err
  deriving Repr, DecidableEq

/-- The old mode as `maybe_modified` compares it (`diff.c:426-429`):
the execute bits are cleared unless the platform trusts them. -/
def mm_omode (caps : DiffCaps) (omode : Nat) : Nat :=
  if ¬ caps.trust_exec_bit then clearExecBits omode else omode

/-- The new mode as `maybe_modified` compares it (`diff.c:420-429`):
on platforms without symlinks a plain file facing an old symlink is
promoted to the old entry's type first, then the execute bits are
cleared unless trusted. -/
def mm_nmode (caps : DiffCaps) (omode nmode : Nat) : Nat :=
  let nm := if S_ISLNK omode ∧ S_ISREG nmode ∧ ¬ caps.has_symlinks
    then GIT_MODE_TYPE omode + nmode % 512 else nmode
  if ¬ caps.trust_exec_bit then clearExecBits nm else nm

/-- `maybe_modified` (`diff.c:403-500`).  `path_matches` stands for
`diff_path_matches_pathspec`, `new_is_workdir` for
`new->type == GIT_ITERATOR_WORKDIR`, `submodule_ok` for a successful
`git_submodule_lookup`, and `workdir_hash` for `oid_for_workdir_item`
keyed by path (`none` = error).  The computed `use_noid` cache is
dropped: it does not affect the classification. -/
def maybe_modified (caps : DiffCaps)
    (ignore_submodules new_is_workdir path_matches submodule_ok : Bool)
    (workdir_hash : Nat → Option Nat)
    (oitem nitem : IndexEntry) : MMOut :=
  if ¬ path_matches then .skipped
  else
    let omode := mm_omode caps oitem.mode
    let nmode := mm_nmode caps oitem.mode nitem.mode
    if caps.assume_unchanged then
      .classified (if oitem.flags_ext.intent_to_add then .MODIFIED
        else .UNMODIFIED)
    else if oitem.flags_ext.skip_worktree then .classified .UNMODIFIED
    else if GIT_MODE_TYPE omode ≠ GIT_MODE_TYPE nmode then .typechange
    else if oitem.oid = nitem.oid ∧ omode = nmode then
      .classified .UNMODIFIED
    else if nitem.oid = 0 ∧ new_is_workdir then
      if oitem.file_size = nitem.file_size ∧
          (¬ caps.trust_ctime ∨ oitem.ctime_seconds = nitem.ctime_seconds) ∧
          oitem.mtime_seconds = nitem.mtime_seconds ∧
          (¬ caps.use_dev ∨ oitem.dev = nitem.dev) ∧
          oitem.ino = nitem.ino ∧ oitem.uid = nitem.uid ∧
          oitem.gid = nitem.gid then
        .classified .UNMODIFIED
      else if S_ISGITLINK nmode then
        if ignore_submodules then .classified .UNMODIFIED
        else if ¬ submodule_ok then .err
        else .classified .UNMODIFIED
      else
        match workdir_hash nitem.path with
        | none => .err
        | some noid =>
          if oitem.oid = noid ∧ omode = nmode then .classified .UNMODIFIED
          else .classified .MODIFIED
    else .classified .MODIFIED

/-! ## Theorems -/

/-- The eviction loop does nothing once the requested count is zero. -/
theorem cache_evict_loop_count_zero
    (fuel : Nat) (cache : GitCache) (seed : Nat) :
    cache_evict_loop fuel cache seed 0 = (cache, []) := by
  cases fuel <;> rfl

/-- C9: a flag-specific raw lookup misses on a PARSED-only entry, a
parsed lookup misses on a RAW-only entry, and the flag-agnostic lookup
returns the entry (increffed) regardless of its stored form. -/
theorem cache_get_flag_filtering
    (cache : GitCache) (oid : Nat) (e : CachedObj)
    (h : kh_get cache oid = some e) :
    (e.flags = GIT_CACHE_STORE_PARSED →
      git_cache_get_raw cache oid = none) ∧
    (e.flags = GIT_CACHE_STORE_RAW →
      git_cache_get_parsed cache oid = none) ∧
    git_cache_get_any cache oid = some (git_cached_obj_incref e) := by
  refine ⟨fun hp => ?_, fun hr => ?_, ?_⟩
  · simp [git_cache_get_raw, cache_get, h, hp,
      GIT_CACHE_STORE_RAW, GIT_CACHE_STORE_PARSED]
  · simp [git_cache_get_parsed, cache_get, h, hr,
      GIT_CACHE_STORE_RAW, GIT_CACHE_STORE_PARSED]
  · simp [git_cache_get_any, cache_get, h, GIT_CACHE_STORE_ANY]

/-- C9 witness: concrete one-entry caches exercised through the theorem. -/
theorem cache_get_flag_filtering_witness :
    (git_cache_get_raw
        ⟨[some ⟨7, 1, 100, GIT_CACHE_STORE_PARSED, 1⟩], 100⟩ 7 = none) ∧
    (git_cache_get_any
        ⟨[some ⟨7, 1, 100, GIT_CACHE_STORE_PARSED, 1⟩], 100⟩ 7 =
      some ⟨7, 1, 100, GIT_CACHE_STORE_PARSED, 2⟩) := by
  have h := cache_get_flag_filtering
    ⟨[some ⟨7, 1, 100, GIT_CACHE_STORE_PARSED, 1⟩], 100⟩ 7
    ⟨7, 1, 100, GIT_CACHE_STORE_PARSED, 1⟩ (by decide)
  exact ⟨h.1 rfl, h.2.2⟩

/-- C1 counterexample: eviction picks an entry whose refcount is 2 (a
caller still holds it).  The claim says such an entry is never chosen. -/
theorem cache_evict_picks_referenced_entry :
    (cache_evict_entries
        ⟨[some ⟨1, 1, 10, GIT_CACHE_STORE_RAW, 2⟩], 10⟩ 0 1 1).2 =
      [⟨1, 1, 10, GIT_CACHE_STORE_RAW, 2⟩] ∧
    (⟨1, 1, 10, GIT_CACHE_STORE_RAW, 2⟩ : CachedObj).refcount ≠ 1 := by
  constructor
  · rfl
  · decide

/-- C1 amended: `cache_evict_entries` never inspects refcounts — any
occupied slot can be the victim.  Probing the occupied slot `pos`
evicts the entry stored there no matter what its refcount is; the entry
is merely decref'd, so it is destroyed exactly when the cache held the
last reference. -/
theorem cache_evict_entries_ignore_refcount
    (cache : GitCache) (pos : Nat) (e : CachedObj) (fuel : Nat)
    (hslot : cache.slots.get? pos = some (some e))
    (hfuel : 1 ≤ fuel) :
    (cache_evict_entries cache pos 1 fuel).2 = [e] ∧
    (cache_evict_entries cache pos 1 fuel).1.slots.get? pos = some none ∧
    (git_cached_obj_decref e = none ↔ e.refcount ≤ 1) := by
  have hpos : pos < cache.slots.length := by
    by_contra hge
    rw [List.get?_eq_none.2 (Nat.le_of_not_lt hge)] at hslot
    exact Option.noConfusion hslot
  have hsize : 1 ≤ kh_size cache := by
    have hmem : (some e) ∈ cache.slots := List.get?_mem hslot
    have : (some e) ∈ cache.slots.filter Option.isSome := by
      exact List.mem_filter.2 ⟨hmem, rfl⟩
    have hne : cache.slots.filter Option.isSome ≠ [] := by
      intro hnil
      rw [hnil] at this
      exact List.not_mem_nil _ this
    exact Nat.one_le_iff_ne_zero.2 (by
      simpa [kh_size, List.length_eq_zero] using hne)
  obtain ⟨f, rfl⟩ : ∃ f, fuel = f + 1 :=
    ⟨fuel - 1, (Nat.succ_pred_eq_of_pos hfuel).symm⟩
  have hmod : pos % kh_end cache = pos := Nat.mod_eq_of_lt hpos
  have hguard : ¬ (1 > kh_size cache) := by omega
  constructor
  · simp only [cache_evict_entries, hguard, if_false, cache_evict_loop,
      hmod, hslot, cache_evict_loop_count_zero]
  constructor
  · simp only [cache_evict_entries, hguard, if_false, cache_evict_loop,
      hmod, hslot, cache_evict_loop_count_zero]
    simp [List.get?_eq_getElem?, List.getElem?_set_eq_of_lt none hpos]
  · constructor
    · intro hd
      by_contra hgt
      simp [git_cached_obj_decref, Nat.sub_eq_zero_iff_le] at hd
      omega
    · intro hle
      simp [git_cached_obj_decref, Nat.sub_eq_zero_iff_le, hle]

/-- C1 amended, witness: evicting from a one-slot cache holding a
refcount-2 entry removes it; the decref does not destroy it. -/
theorem cache_evict_entries_ignore_refcount_witness :
    (cache_evict_entries
        ⟨[some ⟨3, 2, 50, GIT_CACHE_STORE_PARSED, 2⟩], 50⟩ 0 1 1).2 =
      [⟨3, 2, 50, GIT_CACHE_STORE_PARSED, 2⟩] ∧
    (cache_evict_entries
        ⟨[some ⟨3, 2, 50, GIT_CACHE_STORE_PARSED, 2⟩], 50⟩
        0 1 1).1.slots.get? 0 = some none ∧
    (git_cached_obj_decref ⟨3, 2, 50, GIT_CACHE_STORE_PARSED, 2⟩ = none ↔
      (⟨3, 2, 50, GIT_CACHE_STORE_PARSED, 2⟩ : CachedObj).refcount ≤ 1) :=
  cache_evict_entries_ignore_refcount
    ⟨[some ⟨3, 2, 50, GIT_CACHE_STORE_PARSED, 2⟩], 50⟩ 0
    ⟨3, 2, 50, GIT_CACHE_STORE_PARSED, 2⟩ 1 (by decide) (by decide)

/-- C6 counterexample: a well-sized index whose header carries the
signature and version 3 is rejected with `GIT_EOBJCORRUPTED` — the very
code used for structural corruption — not a distinct unsupported-version
error. -/
theorem index_version3_corrupt_error :
    pack_index_check
        ⟨1064, fun i => if i = 0 then PACK_IDX_SIGNATURE
                        else if i = 1 then 3 else 0⟩ =
      .error .EOBJCORRUPTED ∧
    pack_index_check ⟨1064, fun i => if i = 0 then 5 else 0⟩ =
      .error .EOBJCORRUPTED ∧
    GitError.EOBJCORRUPTED ≠ GitError.ENOTIMPLEMENTED := by
  refine ⟨rfl, rfl, by decide⟩

/-- C6 amended: with the index signature present, any version other
than 2 (so in particular every version outside {1,2}) makes
`pack_index_check` fail with `GIT_EOBJCORRUPTED`, the same error code
structural checks use; the snapshot has no separate Unsupported code. -/
theorem pack_index_unsupported_version_is_corrupt
    (f : IdxData)
    (hsize : 4 * 256 + 20 + 20 ≤ f.size)
    (hsig : f.words 0 = PACK_IDX_SIGNATURE)
    (hver : f.words 1 ≠ 2) :
    pack_index_check f = .error .EOBJCORRUPTED := by
  have h1 : ¬ (f.size < 4 * 256 + 20 + 20) := by omega
  have h2 : f.words 1 < 2 ∨ f.words 1 > 2 := by omega
  simp [pack_index_check, h1, hsig, h2]

/-- C6 amended, witness. -/
theorem pack_index_unsupported_version_is_corrupt_witness :
    pack_index_check
        ⟨2000, fun i => if i = 0 then PACK_IDX_SIGNATURE else 5⟩ =
      .error .EOBJCORRUPTED :=
  pack_index_unsupported_version_is_corrupt
    ⟨2000, fun i => if i = 0 then PACK_IDX_SIGNATURE else 5⟩
    (by decide) (by decide) (by decide)

/-- `packfile_load__cb` only ever appends to the pack vector. -/
theorem packfile_load__cb_sublist
    (fs : Fs) (b b1 : PackBackend) (f : FName)
    (h : packfile_load__cb fs b f = .ok b1) :
    b.packs.Sublist b1.packs := by
  unfold packfile_load__cb at h
  split at h
  · cases h; exact List.Sublist.refl _
  · split at h
    · cases h; exact List.Sublist.refl _
    · unfold packfile_check at h
      split at h
      · cases h
      · simp only [Except.ok.injEq] at h
        subst h
        exact List.sublist_append_left _ _

/-- The directory scan only ever appends to the pack vector. -/
theorem pack_dirent_loop_sublist
    (fs : Fs) (files : List FName) (b b1 : PackBackend)
    (h : pack_dirent_loop fs b files = .ok b1) :
    b.packs.Sublist b1.packs := by
  induction files generalizing b with
  | nil =>
    unfold pack_dirent_loop at h
    cases h; exact List.Sublist.refl _
  | cons f rest ih =>
    unfold pack_dirent_loop at h
    cases hcb : packfile_load__cb fs b f with
    | error e => rw [hcb] at h; cases h
    | ok b2 =>
      rw [hcb] at h
      exact (packfile_load__cb_sublist fs b b2 f hcb).trans (ih b2 h)

/-- Every `.idx` directory entry whose `.pack` exists ends up (by base
name) in the vector after a successful scan. -/
theorem pack_dirent_loop_discovers
    (fs : Fs) (files : List FName) (b b1 : PackBackend) (f : FName)
    (hmem : f ∈ files) (hext : f.ext = FExt.idx)
    (hpack : fs.pack_exists f.base = true)
    (h : pack_dirent_loop fs b files = .ok b1) :
    f.base ∈ b1.packs.map PackFileM.base := by
  induction files generalizing b with
  | nil => cases hmem
  | cons g rest ih =>
    unfold pack_dirent_loop at h
    cases hcb : packfile_load__cb fs b g with
    | error e => rw [hcb] at h; cases h
    | ok b2 =>
      rw [hcb] at h
      rcases List.mem_cons.1 hmem with hgf | hrest
      · subst hgf
        have hin : f.base ∈ b2.packs.map PackFileM.base := by
          unfold packfile_load__cb at hcb
          rw [if_neg (by simp [hext])] at hcb
          split at hcb
          · cases hcb
            rename_i hany
            rcases List.any_eq_true.1 hany with ⟨p, hp, hpb⟩
            exact List.mem_map.2 ⟨p, hp, (by simpa using hpb)⟩
          · unfold packfile_check at hcb
            rw [if_neg (by simp [hpack])] at hcb
            simp only [Except.ok.injEq] at hcb
            subst hcb
            simp
        have hsub := (pack_dirent_loop_sublist fs rest b2 b1 h).map
          PackFileM.base
        exact hsub.subset hin
      · exact ih b2 hrest h

/-- C3 counterexample: the pack with base 1 has been removed from the
pack directory (the listing is empty) and the directory mtime changed
from 5 to 6; the refresh succeeds but the backend still holds that
pack — removed packs are not forgotten. -/
theorem refresh_keeps_removed_pack :
    packfile_refresh_all
        ⟨true, 6, [], fun _ => false, fun _ => 0, fun _ => false,
          fun _ => []⟩
        ⟨[⟨1, 3, true, false, [], [], true⟩], none, some 0, 5⟩ =
      .ok ⟨[⟨1, 3, true, false, [], [], true⟩], none, some 0, 6⟩ := by
  simp [packfile_refresh_all, pack_dirent_loop,
    List.mergeSort_singleton]

/-- C3 amended: on a query, an unchanged directory mtime leaves the
pack collection untouched; a changed mtime triggers a rescan after
which every previously loaded pack is still present (packs whose files
were removed are *not* forgotten) and every `.idx` in the directory
with its `.pack` present is visible by base name. -/
theorem packfile_refresh_behavior
    (fs : Fs) (b : PackBackend) (d : Nat)
    (hf : b.pack_folder = some d) (hok : fs.folder_ok = true) :
    (fs.folder_mtime = b.pack_folder_mtime →
      packfile_refresh_all fs b = .ok b) ∧
    (∀ b1, packfile_refresh_all fs b = .ok b1 →
      (∀ p ∈ b.packs, p ∈ b1.packs) ∧
      (fs.folder_mtime ≠ b.pack_folder_mtime →
        ∀ f ∈ fs.files, f.ext = FExt.idx →
          fs.pack_exists f.base = true →
          f.base ∈ b1.packs.map PackFileM.base)) := by
  constructor
  · intro heq
    simp [packfile_refresh_all, hf, hok, heq]
  · intro b1 h
    unfold packfile_refresh_all at h
    rw [hf] at h
    rw [if_neg (by simp [hok])] at h
    by_cases hmt : fs.folder_mtime = b.pack_folder_mtime
    · rw [if_neg (by simp [hmt])] at h
      cases h
      exact ⟨fun p hp => hp, fun hne => absurd hmt hne⟩
    · rw [if_pos hmt] at h
      cases hloop : pack_dirent_loop fs b fs.files with
      | error e => rw [hloop] at h; cases h
      | ok b2 =>
        rw [hloop] at h
        simp only [Except.ok.injEq] at h
        subst h
        have hperm := List.mergeSort_perm b2.packs packfile_sort_le
        constructor
        · intro p hp
          have : p ∈ b2.packs :=
            (pack_dirent_loop_sublist fs fs.files b b2 hloop).subset hp
          exact (hperm.mem_iff).2 this
        · intro _ f hmem hext hpack
          have : f.base ∈ b2.packs.map PackFileM.base :=
            pack_dirent_loop_discovers fs fs.files b b2 f hmem hext
              hpack hloop
          exact ((hperm.map PackFileM.base).mem_iff).2 this

/-- C3 amended, witness: with the directory mtime unchanged (both 5),
a refresh leaves the backend untouched even though the listing is
empty. -/
theorem packfile_refresh_behavior_witness :
    packfile_refresh_all
        ⟨true, 5, [], fun _ => false, fun _ => 0, fun _ => false,
          fun _ => []⟩
        ⟨[⟨1, 3, true, false, [], [], true⟩], none, some 0, 5⟩ =
      .ok ⟨[⟨1, 3, true, false, [], [], true⟩], none, some 0, 5⟩ :=
  (packfile_refresh_behavior
    ⟨true, 5, [], fun _ => false, fun _ => 0, fun _ => false,
      fun _ => []⟩
    ⟨[⟨1, 3, true, false, [], [], true⟩], none, some 0, 5⟩
    0 rfl rfl).1 rfl


/-- `findIdx?` lands right after a non-matching block. -/
theorem findIdx?_prepend_none {α : Type} (m : α → Bool) (a : List α)
    (o : α) (rest : List α)
    (ha : ∀ x ∈ a, m x = false) (ho : m o = true) :
    (a ++ o :: rest).findIdx? m = some a.length := by
  induction a with
  | nil => simp [List.findIdx?_cons, ho]
  | cons x a1 ih =>
    have hx : m x = false := ha x (by simp)
    simp only [List.cons_append, List.findIdx?_cons, hx, Bool.false_eq_true,
      if_false, List.findIdx?_succ]
    rw [ih (fun y hy => ha y (by simp [hy]))]
    simp

/-- With matches forming one contiguous block, `pack_entry_find_offset`
is determined by the size of the block: empty is not-found, a singleton
is the unique hit, two or more are an in-pack ambiguity. -/
theorem pack_entry_find_offset_char
    (p : PackFileM) (short : List Nat) (len : Nat)
    (a b c : List (List Nat)) (hdec : p.entries = a ++ b ++ c)
    (ha : ∀ o ∈ a, oid_npfx_match short o len = false)
    (hb : ∀ o ∈ b, oid_npfx_match short o len = true)
    (hc : ∀ o ∈ c, oid_npfx_match short o len = false) :
    (b = [] → pack_entry_find_offset p short len = .error .ENOTFOUND) ∧
    (∀ o, b = [o] →
      pack_entry_find_offset p short len = .ok (a.length, o)) ∧
    (2 ≤ b.length →
      pack_entry_find_offset p short len = .error .EAMBIGUOUS) := by
  refine ⟨fun hb0 => ?_, fun o hb1 => ?_, fun hb2 => ?_⟩
  · subst hb0
    unfold pack_entry_find_offset
    rw [hdec]
    have hnone : (a ++ [] ++ c).findIdx?
        (fun o => oid_npfx_match short o len) = none := by
      rw [List.findIdx?_eq_none_iff]
      intro x hx
      simp only [List.append_nil, List.mem_append] at hx
      rcases hx with hx | hx
      · exact ha x hx
      · exact hc x hx
    rw [hnone]
  · subst hb1
    unfold pack_entry_find_offset
    rw [hdec]
    have hshape : a ++ [o] ++ c = a ++ o :: c := by simp
    rw [hshape]
    simp only [findIdx?_prepend_none _ a o c ha (hb o (by simp))]
    have hgetpos : (a ++ o :: c).getD a.length [] = o := by
      rw [List.getD_eq_getElem?_getD,
        List.getElem?_append_right (Nat.le_refl _)]
      simp
    cases c with
    | nil =>
      have hlen : ¬ (a.length + 1 < (a ++ [o]).length) := by
        simp [List.length_append]
      rw [if_neg (fun hcon => hlen hcon.1)]
      simp only [List.append_nil] at hgetpos
      rw [hgetpos]
    | cons x c1 =>
      have hget : (a ++ o :: (x :: c1)).getD (a.length + 1) [] = x := by
        rw [List.getD_eq_getElem?_getD,
          List.getElem?_append_right (by omega)]
        simp
      have hx : oid_npfx_match short x len = false := hc x (by simp)
      rw [if_neg (by
        intro hcon
        rw [hget, hx] at hcon
        exact Bool.noConfusion hcon.2)]
      rw [hgetpos]
  · obtain ⟨o, o2, b2, rfl⟩ : ∃ o o2 b2, b = o :: o2 :: b2 := by
      cases b with
      | nil => simp at hb2
      | cons o b1 =>
        cases b1 with
        | nil => simp at hb2
        | cons o2 b2 => exact ⟨o, o2, b2, rfl⟩
    unfold pack_entry_find_offset
    rw [hdec]
    have hshape : a ++ (o :: o2 :: b2) ++ c = a ++ o :: (o2 :: (b2 ++ c)) := by
      simp
    rw [hshape]
    simp only
      [findIdx?_prepend_none _ a o (o2 :: (b2 ++ c)) ha (hb o (by simp))]
    have hlen : a.length + 1 < (a ++ o :: (o2 :: (b2 ++ c))).length := by
      simp [List.length_append]
    have hget : (a ++ o :: (o2 :: (b2 ++ c))).getD (a.length + 1) [] = o2 := by
      rw [List.getD_eq_getElem?_getD,
        List.getElem?_append_right (by omega)]
      simp
    rw [if_pos ⟨hlen, by rw [hget]; exact hb o2 (by simp)⟩]

/-- The number of matching entries is the length of the match block. -/
theorem pfx_count_eq_block
    (p : PackFileM) (short : List Nat) (len : Nat)
    (a b c : List (List Nat)) (hdec : p.entries = a ++ b ++ c)
    (ha : ∀ o ∈ a, oid_npfx_match short o len = false)
    (hb : ∀ o ∈ b, oid_npfx_match short o len = true)
    (hc : ∀ o ∈ c, oid_npfx_match short o len = false) :
    pfx_count p short len = b.length := by
  unfold pfx_count
  rw [hdec, List.filter_append, List.filter_append]
  rw [List.filter_eq_nil_iff.2 (by intro x hx; simp [ha x hx]),
    List.filter_eq_self.2 hb,
    List.filter_eq_nil_iff.2 (by intro x hx; simp [hc x hx])]
  simp

/-- `pack_entry_find1` through the match count of the pack. -/
theorem pack_entry_find1_char
    (p : PackFileM) (short : List Nat) (len : Nat)
    (hopen : p.open_ok = true) (hbad : p.bad_objects = [])
    (hcontig : ContigMatches p short len) :
    (pfx_count p short len = 0 →
      pack_entry_find1 p short len = .error .ENOTFOUND) ∧
    (pfx_count p short len = 1 →
      ∃ entry, pack_entry_find1 p short len = .ok entry) ∧
    (2 ≤ pfx_count p short len →
      pack_entry_find1 p short len = .error .EAMBIGUOUS) := by
  obtain ⟨a, b, c, hdec, ha, hb, hc⟩ := hcontig
  have hcount := pfx_count_eq_block p short len a b c hdec ha hb hc
  have hoff := pack_entry_find_offset_char p short len a b c hdec ha hb hc
  have hbadif : ¬ (len = GIT_OID_HEXSZ ∧ short ∈ p.bad_objects) := by
    rw [hbad]
    intro hcon
    exact List.not_mem_nil short hcon.2
  refine ⟨fun h0 => ?_, fun h1 => ?_, fun h2 => ?_⟩
  · have hb0 : b = [] := by
      rw [hcount] at h0
      exact List.length_eq_zero.1 h0
    unfold pack_entry_find1
    rw [if_neg hbadif, hoff.1 hb0]
  · rw [hcount] at h1
    obtain ⟨o, rfl⟩ : ∃ o, b = [o] := by
      cases b with
      | nil => simp at h1
      | cons o b1 =>
        cases b1 with
        | nil => exact ⟨o, rfl⟩
        | cons o2 b2 => simp at h1
    refine ⟨⟨a.length, p.base, o⟩, ?_⟩
    unfold pack_entry_find1
    rw [if_neg hbadif, hoff.2.1 o rfl]
    simp [hopen]
  · rw [hcount] at h2
    unfold pack_entry_find1
    rw [if_neg hbadif, hoff.2.2 h2]

/-- The pack loop of the prefix search, composed with the final
found-count decision, ends in `Ambiguous` exactly when some pack is
internally ambiguous for the prefix or when, counting the `found`
successes brought in, at least two packs contain a match. -/
theorem find_pfx_loop_ambiguous_iff
    (short : List Nat) (len : Nat) :
    ∀ (packs : List PackFileM) (found : Nat) (e : Option PackEntry)
      (lf : Option Nat),
      (∀ p ∈ packs, p.open_ok = true) →
      (∀ p ∈ packs, p.bad_objects = []) →
      (∀ p ∈ packs, ContigMatches p short len) →
      (∀ p ∈ packs, lf ≠ some p.base) →
      ((packs.map PackFileM.base).Nodup) →
      found ≤ 1 →
      (pack_entry_find_pfx_final
          (pack_entry_find_pfx_loop short len packs found e lf) =
        .error .EAMBIGUOUS ↔
      (∃ p ∈ packs, 2 ≤ pfx_count p short len) ∨
      2 ≤ found +
        packs.countP (fun p => decide (1 ≤ pfx_count p short len))) := by
  intro packs
  induction packs with
  | nil =>
    intro found e lf _ _ _ _ _ hfound
    have hloopnil : pack_entry_find_pfx_loop short len [] found e lf =
        .ok (found, e, lf) := rfl
    rw [hloopnil]
    constructor
    · intro h
      exfalso
      have hcases : found = 0 ∨ found = 1 := by omega
      rcases hcases with rfl | rfl
      · simp [pack_entry_find_pfx_final] at h
      · cases e <;> simp [pack_entry_find_pfx_final] at h
    · intro h
      rcases h with ⟨q, hq, _⟩ | hge
      · exact absurd hq (List.not_mem_nil q)
      · simp only [List.countP_nil] at hge
        omega
  | cons p rest ih =>
    intro found e lf hopen hbad hcontig hlf hnodup hfound
    have hskip : ¬ (lf = some p.base) := hlf p (by simp)
    have hchar := pack_entry_find1_char p short len
      (hopen p (by simp)) (hbad p (by simp)) (hcontig p (by simp))
    have hopen1 : ∀ q ∈ rest, q.open_ok = true :=
      fun q hq => hopen q (by simp [hq])
    have hbad1 : ∀ q ∈ rest, q.bad_objects = [] :=
      fun q hq => hbad q (by simp [hq])
    have hcontig1 : ∀ q ∈ rest, ContigMatches q short len :=
      fun q hq => hcontig q (by simp [hq])
    have hpb : p.base ∉ rest.map PackFileM.base := by
      simp only [List.map_cons, List.nodup_cons] at hnodup
      exact hnodup.1
    have hnodup1 : (rest.map PackFileM.base).Nodup := by
      simp only [List.map_cons, List.nodup_cons] at hnodup
      exact hnodup.2
    rcases Nat.lt_or_ge (pfx_count p short len) 1 with hcnt | hcnt1
    · -- the head pack has no match: the loop just moves on
      have hcnt0 : pfx_count p short len = 0 := by omega
      have hred : pack_entry_find_pfx_loop short len (p :: rest) found e lf
          = pack_entry_find_pfx_loop short len rest found e lf := by
        conv_lhs => unfold pack_entry_find_pfx_loop
        rw [if_neg hskip, hchar.1 hcnt0]
      have hlf1 : ∀ q ∈ rest, lf ≠ some q.base :=
        fun q hq => hlf q (by simp [hq])
      rw [hred, ih found e lf hopen1 hbad1 hcontig1 hlf1 hnodup1 hfound]
      have hcp : (decide (1 ≤ pfx_count p short len)) = false := by
        simp [hcnt0]
      have hcc : (p :: rest).countP
            (fun q => decide (1 ≤ pfx_count q short len))
          = rest.countP (fun q => decide (1 ≤ pfx_count q short len)) := by
        rw [List.countP_cons, hcp]
        simp
      constructor
      · rintro (⟨q, hq, h2⟩ | hge)
        · exact Or.inl ⟨q, List.mem_cons_of_mem p hq, h2⟩
        · right
          rw [hcc]
          omega
      · rintro (⟨q, hq, h2⟩ | hge)
        · rcases List.mem_cons.1 hq with rfl | hq1
          · omega
          · exact Or.inl ⟨q, hq1, h2⟩
        · right
          rw [hcc] at hge
          omega
    · rcases Nat.lt_or_ge (pfx_count p short len) 2 with hcnt2 | hcnt2
      · -- the head pack has exactly one match
        have hcnt1e : pfx_count p short len = 1 := by omega
        obtain ⟨entry, hfind⟩ := hchar.2.1 hcnt1e
        have hcp : (decide (1 ≤ pfx_count p short len)) = true := by
          simp [hcnt1e]
        have hcc : (p :: rest).countP
              (fun q => decide (1 ≤ pfx_count q short len))
            = rest.countP
                (fun q => decide (1 ≤ pfx_count q short len)) + 1 := by
          rw [List.countP_cons, hcp]
          simp
        rcases Nat.lt_or_ge found 1 with h0 | h1
        · have hf0 : found = 0 := by omega
          subst hf0
          have hred : pack_entry_find_pfx_loop short len (p :: rest) 0 e lf
              = pack_entry_find_pfx_loop short len rest 1 (some entry)
                  (some p.base) := by
            conv_lhs => unfold pack_entry_find_pfx_loop
            rw [if_neg hskip, hfind]
            rfl
          have hlf2 : ∀ q ∈ rest, some p.base ≠ some q.base := by
            intro q hq hcon
            exact hpb (List.mem_map.2 ⟨q, hq, (Option.some.inj hcon).symm⟩)
          rw [hred, ih 1 (some entry) (some p.base) hopen1 hbad1 hcontig1
            hlf2 hnodup1 (by omega)]
          constructor
          · rintro (⟨q, hq, h2⟩ | hge)
            · exact Or.inl ⟨q, List.mem_cons_of_mem p hq, h2⟩
            · right
              rw [hcc]
              omega
          · rintro (⟨q, hq, h2⟩ | hge)
            · rcases List.mem_cons.1 hq with rfl | hq1
              · omega
              · exact Or.inl ⟨q, hq1, h2⟩
            · right
              rw [hcc] at hge
              omega
        · have hf1 : found = 1 := by omega
          subst hf1
          have hred : pack_entry_find_pfx_loop short len (p :: rest) 1 e lf
              = .ok (2, some entry, lf) := by
            conv_lhs => unfold pack_entry_find_pfx_loop
            rw [if_neg hskip, hfind]
            rfl
          rw [hred]
          constructor
          · intro _
            right
            rw [hcc]
            omega
          · intro _
            rfl
      · -- the head pack is internally ambiguous
        have hred : pack_entry_find_pfx_loop short len (p :: rest) found e lf
            = .error .EAMBIGUOUS := by
          conv_lhs => unfold pack_entry_find_pfx_loop
          rw [if_neg hskip, hchar.2.2 hcnt2]
        rw [hred]
        constructor
        · intro _
          exact Or.inl ⟨p, by simp, hcnt2⟩
        · intro _
          rfl

/-- C2 counterexample: two packs that both contain the *same* object
`[3,4]`; the prefix `[3,4]` resolves to that one full OID in both
packs, yet the prefix search fails `GIT_EAMBIGUOUSOIDPREFIX` — the
loop counts matching packs without ever comparing the resolved OIDs. -/
theorem find_pfx_same_oid_two_packs_ambiguous :
    pack_entry_find_pfx
        ⟨true, 0, [], fun _ => false, fun _ => 0, fun _ => false,
          fun _ => []⟩
        ⟨[⟨1, 0, true, false, [[3, 4]], [], true⟩,
          ⟨2, 0, true, false, [[3, 4]], [], true⟩], none, none, 0⟩
        [3, 4] 2 = .error .EAMBIGUOUS ∧
    pack_entry_find1 ⟨1, 0, true, false, [[3, 4]], [], true⟩ [3, 4] 2 =
      .ok ⟨0, 1, [3, 4]⟩ ∧
    pack_entry_find1 ⟨2, 0, true, false, [[3, 4]], [], true⟩ [3, 4] 2 =
      .ok ⟨0, 2, [3, 4]⟩ := by
  refine ⟨rfl, rfl, rfl⟩

/-- C2 amended: on a backend with no cached last-found pack, sorted
pack indices, no bad-object lists and all packs openable, the prefix
search returns `Ambiguous` iff some single pack holds at least two
matching entries, or at least two different packs each hold a match —
*regardless of whether those matches are the same full OID*.  (The
"visits every pack" side survives in that the right-hand side ranges
over all loaded packs.) -/
theorem find_pfx_ambiguous_iff
    (fs : Fs) (backend : PackBackend) (short : List Nat) (len : Nat)
    (hfolder : backend.pack_folder = none)
    (hlf : backend.last_found = none)
    (hopen : ∀ p ∈ backend.packs, p.open_ok = true)
    (hbad : ∀ p ∈ backend.packs, p.bad_objects = [])
    (hcontig : ∀ p ∈ backend.packs, ContigMatches p short len)
    (hnodup : (backend.packs.map PackFileM.base).Nodup) :
    (pack_entry_find_pfx fs backend short len = .error .EAMBIGUOUS ↔
      (∃ p ∈ backend.packs, 2 ≤ pfx_count p short len) ∨
      2 ≤ backend.packs.countP
        (fun p => decide (1 ≤ pfx_count p short len))) := by
  obtain ⟨packs, lf0, folder, mt⟩ := backend
  simp only at hfolder hlf hopen hbad hcontig hnodup
  subst hfolder
  subst hlf
  simp only
  have hstep : pack_entry_find_pfx fs ⟨packs, none, none, mt⟩ short len =
      match pack_entry_find_pfx_final
          (pack_entry_find_pfx_loop short len packs 0 none none) with
      | .error e => .error e
      | .ok (entry, lf) =>
          .ok (entry, (⟨packs, lf, none, mt⟩ : PackBackend)) := by
    unfold pack_entry_find_pfx packfile_refresh_all
    rfl
  have hiff := find_pfx_loop_ambiguous_iff short len packs 0
    none none hopen hbad hcontig
    (by intro p hp hcon; exact Option.noConfusion hcon)
    hnodup (by omega)
  rw [Nat.zero_add] at hiff
  rw [hstep]
  cases hfin : pack_entry_find_pfx_final
      (pack_entry_find_pfx_loop short len packs 0 none none) with
  | error e =>
    rw [hfin] at hiff
    constructor
    · intro h
      have he : e = GitError.EAMBIGUOUS := by simpa using h
      exact hiff.1 (by rw [he])
    · intro h
      have he : e = GitError.EAMBIGUOUS := by
        have := hiff.2 h
        simpa using this
      simp [he]
  | ok v =>
    obtain ⟨entry, lf⟩ := v
    rw [hfin] at hiff
    constructor
    · intro h
      exact absurd h (by simp)
    · intro h
      exact absurd (hiff.2 h) (by simp)

/-- C2 amended, witness: two single-entry packs both matching prefix
`[3,4]` (with different full OIDs `[3,4,1]` and `[3,4,2]`): the lookup
is ambiguous by the characterization. -/
theorem find_pfx_ambiguous_iff_witness :
    pack_entry_find_pfx
        ⟨true, 0, [], fun _ => false, fun _ => 0, fun _ => false,
          fun _ => []⟩
        ⟨[⟨1, 0, true, false, [[3, 4, 1]], [], true⟩,
          ⟨2, 0, true, false, [[3, 4, 2]], [], true⟩], none, none, 0⟩
        [3, 4] 2 = .error .EAMBIGUOUS := by
  have h := find_pfx_ambiguous_iff
    ⟨true, 0, [], fun _ => false, fun _ => 0, fun _ => false,
      fun _ => []⟩
    ⟨[⟨1, 0, true, false, [[3, 4, 1]], [], true⟩,
      ⟨2, 0, true, false, [[3, 4, 2]], [], true⟩], none, none, 0⟩
    [3, 4] 2 rfl rfl (by decide) (by decide)
    (by
      intro p hp
      rcases List.mem_cons.1 hp with rfl | hp1
      · exact ⟨[], [[3, 4, 1]], [], rfl, by simp, by decide, by simp⟩
      · rcases List.mem_cons.1 hp1 with rfl | hp2
        · exact ⟨[], [[3, 4, 2]], [], rfl, by simp, by decide, by simp⟩
        · exact absurd hp2 (List.not_mem_nil p))
    (by decide)
  exact h.2 (Or.inr (by decide))

/-- `commit_list_insert_by_date` never reorders: `commit_time_cmp`
returns the boolean `a.time < b.time` (0 or 1) where the insertion test
expects a negative value, so the comparison never fires and the item is
always appended at the tail. -/
theorem commit_list_insert_by_date_appends
    (walk : Revwalk) (item : Nat) (l : List Nat) :
    commit_list_insert_by_date walk item l = l ++ [item] := by
  induction l with
  | nil => rfl
  | cons p rest ih =>
    unfold commit_list_insert_by_date
    rw [if_neg (by unfold commit_time_cmp; split <;> omega), ih]
    rfl

/-- Keyed `find?` commutes with a value-only map. -/
theorem find?_key_map (g : CommitObject → CommitObject)
    (l : List (Nat × CommitObject)) (oid : Nat) :
    (l.map (fun pr => (pr.1, g pr.2))).find? (fun pr => pr.1 = oid) =
      (l.find? (fun pr => pr.1 = oid)).map (fun pr => (pr.1, g pr.2)) := by
  induction l with
  | nil => rfl
  | cons x rest ih =>
    by_cases h : x.1 = oid
    · simp [List.find?_cons, h]
    · simp [List.find?_cons, h, ih]

/-- C4 counterexample: a commit carrying merge-base flags
`PARENT1|STALE` (= 9), all scratch bits set; after
`git_revwalk_reset` the scratch bits are cleared but the flags nibble
is still 9 — the claim that PARENT1/PARENT2/RESULT/STALE are cleared
is false. -/
theorem reset_keeps_merge_base_flags :
    lookupCommit
      (git_revwalk_reset
        ⟨[(1, ⟨1, 7, true, true, true, true, mb_or PARENT1 STALE, 2, []⟩)],
          [], [], [], [], some 1, [], true, true, false, false⟩) 1 =
      some ⟨1, 7, false, false, false, true, mb_or PARENT1 STALE, 0, []⟩ ∧
    mb_or PARENT1 STALE ≠ mb_zero := by
  exact ⟨rfl, by decide⟩

/-- C4 amended: `git_revwalk_reset` clears the per-commit scratch flags
`seen`, `uninteresting`, `topo_delay` and `in_degree` of every interned
commit and empties every iterator, but it does *not* touch the
merge-base flags (PARENT1/PARENT2/RESULT/STALE) nor `parsed`. -/
theorem git_revwalk_reset_clears_scratch
    (walk : Revwalk) (oid : Nat) (c : CommitObject)
    (h : lookupCommit (git_revwalk_reset walk) oid = some c) :
    c.seen = false ∧ c.uninteresting = false ∧ c.topo_delay = false ∧
    c.in_degree = 0 ∧
    (∃ c0, lookupCommit walk oid = some c0 ∧ c.flags = c0.flags ∧
      c.parsed = c0.parsed ∧ c.time = c0.time ∧ c.parents = c0.parents) ∧
    (git_revwalk_reset walk).iterator_time = [] ∧
    (git_revwalk_reset walk).iterator_topo = [] ∧
    (git_revwalk_reset walk).iterator_rand = [] ∧
    (git_revwalk_reset walk).iterator_reverse = [] ∧
    (git_revwalk_reset walk).walking = false := by
  have hre : lookupCommit (git_revwalk_reset walk) oid =
      (lookupCommit walk oid).map (fun c0 =>
        { c0 with seen := false, in_degree := 0, topo_delay := false,
                  uninteresting := false }) := by
    have hcom : (git_revwalk_reset walk).commits =
        walk.commits.map (fun pr => (pr.1,
          (fun c0 =>
            { c0 with
              seen := false
              in_degree := 0
              topo_delay := false
              uninteresting := false }) pr.2)) := rfl
    unfold lookupCommit
    rw [hcom, find?_key_map
      (fun c0 =>
        { c0 with
          seen := false
          in_degree := 0
          topo_delay := false
          uninteresting := false }) walk.commits oid]
    cases walk.commits.find? (fun pr => pr.1 = oid) <;> rfl
  rw [hre] at h
  rcases Option.map_eq_some'.1 h with ⟨c0, hc0, hc⟩
  subst hc
  refine ⟨rfl, rfl, rfl, rfl, ⟨c0, hc0, rfl, rfl, rfl, rfl⟩,
    rfl, rfl, rfl, rfl, rfl⟩

/-- C4 amended, witness: concrete one-commit walker through the
theorem. -/
theorem git_revwalk_reset_clears_scratch_witness :
    ((⟨1, 7, false, false, false, true, STALE, 0, []⟩ :
        CommitObject).seen = false) ∧
    (∃ c0, lookupCommit
        ⟨[(1, ⟨1, 7, true, true, true, true, STALE, 2, []⟩)],
          [], [], [], [], some 1, [], true, true, false, false⟩ 1 =
        some c0 ∧
      (⟨1, 7, false, false, false, true, STALE, 0, []⟩ :
        CommitObject).flags = c0.flags) := by
  have h := git_revwalk_reset_clears_scratch
    ⟨[(1, ⟨1, 7, true, true, true, true, STALE, 2, []⟩)],
      [], [], [], [], some 1, [], true, true, false, false⟩ 1
    ⟨1, 7, false, false, false, true, STALE, 0, []⟩ rfl
  refine ⟨h.1, ?_⟩
  rcases h.2.2.2.2.1 with ⟨c0, hc0, hfl, _⟩
  exact ⟨c0, hc0, hfl⟩

/-- C5 counterexample: oid 7 names a blob; pushing it *succeeds*
(`push_commit` only interns the oid, it never reads the ODB), and the
first `next` call fails with `GIT_EOBJTYPE` — not `GIT_ENOTFOUND`, and
not from the push. -/
theorem push_blob_succeeds_then_next_eobjtype :
    (git_revwalk_push git_revwalk_new 7).map
      (fun w => (git_revwalk_next
        (fun oid => if oid = 7 then some ⟨OType.blob, [], 0⟩ else none)
        10 w).1) = .ok (.error .EOBJTYPE) ∧
    GitError.EOBJTYPE ≠ GitError.ENOTFOUND := by
  exact ⟨rfl, by decide⟩

/-- C5 amended: pushing any OID that the ODB resolves to a non-commit
object succeeds; the type error surfaces from the first `next` call
(whose `prepare_walk` parses the pushed tip), and its code is
`GIT_EOBJTYPE`, not `GIT_ENOTFOUND`. -/
theorem push_non_commit_fails_at_next
    (odb : Odb) (oid : Nat) (obj : OdbObj) (fuel : Nat)
    (hobj : odb oid = some obj) (htype : obj.otype ≠ OType.commit) :
    ∃ w1, git_revwalk_push git_revwalk_new oid = .ok w1 ∧
      (git_revwalk_next odb fuel w1).1 = .error .EOBJTYPE := by
  have hpush : git_revwalk_push git_revwalk_new oid = .ok
      ⟨[(oid, freshCommit oid)], [], [], [], [], some oid, [], false,
        false, false, false⟩ := by
    simp [git_revwalk_push, push_commit, commit_lookup, lookupCommit,
      getCommit, setCommit, git_revwalk_new, freshCommit]
  refine ⟨_, hpush, ?_⟩
  have hparse : commit_parse odb
      ⟨[(oid, freshCommit oid)], [], [], [], [], some oid, [], false,
        false, false, false⟩ oid = .error .EOBJTYPE := by
    simp [commit_parse, lookupCommit, freshCommit, hobj, htype]
  have hmb : merge_bases_many odb fuel
      ⟨[(oid, freshCommit oid)], [], [], [], [], some oid, [], false,
        false, false, false⟩ oid [] = .error .EOBJTYPE := by
    simp [merge_bases_many, hparse]
  have hprep : prepare_walk odb fuel
      ⟨[(oid, freshCommit oid)], [], [], [], [], some oid, [], false,
        false, false, false⟩ = .error .EOBJTYPE := by
    simp [prepare_walk, hmb]
  simp [git_revwalk_next, hprep]

/-- C5 amended, witness. -/
theorem push_non_commit_fails_at_next_witness :
    (git_revwalk_push git_revwalk_new 9).map
      (fun w => (git_revwalk_next
        (fun oid => if oid = 9 then some ⟨OType.tree, [], 5⟩ else none)
        3 w).1) = .ok (.error .EOBJTYPE) := by
  obtain ⟨w1, hp, hn⟩ := push_non_commit_fails_at_next
    (fun oid => if oid = 9 then some ⟨OType.tree, [], 5⟩ else none) 9
    ⟨OType.tree, [], 5⟩ 3 rfl (by decide)
  rw [hp]
  simp [Except.map, hn]

/-- Pushing commit 3 onto a TIME-sorted fresh walker interns it and
records it as `one`. -/
theorem lin_stage_push (rev : Bool) :
    git_revwalk_push (git_revwalk_sorting git_revwalk_new true false rev) 3 =
    .ok (linW0 rev) := by
  rfl

set_option maxHeartbeats 800000 in
/-- First merge-base loop iteration: parse commit 2, flag it PARENT1. -/
theorem lin_stage_loop1 (t1 t2 t3 : Nat) (rev : Bool) :
    merge_bases_loop (linear3 t1 t2 t3) 30 (linM0 t3 rev) [3] [] =
    merge_bases_loop (linear3 t1 t2 t3) 29 (linM1 t2 t3 rev) [2] [] := by
  conv_lhs => unfold merge_bases_loop
  rfl

set_option maxHeartbeats 800000 in
/-- Second merge-base loop iteration: parse commit 1, flag it PARENT1. -/
theorem lin_stage_loop2 (t1 t2 t3 : Nat) (rev : Bool) :
    merge_bases_loop (linear3 t1 t2 t3) 29 (linM1 t2 t3 rev) [2] [] =
    merge_bases_loop (linear3 t1 t2 t3) 28
      (linWmid t1 t2 t3 false false false [] [] false rev) [1] [] := by
  conv_lhs => unfold merge_bases_loop
  rfl

set_option maxHeartbeats 800000 in
/-- Third iteration: the root commit has no parents, it is just popped. -/
theorem lin_stage_loop3 (t1 t2 t3 : Nat) (rev : Bool) :
    merge_bases_loop (linear3 t1 t2 t3) 28
      (linWmid t1 t2 t3 false false false [] [] false rev) [1] [] =
    merge_bases_loop (linear3 t1 t2 t3) 27
      (linWmid t1 t2 t3 false false false [] [] false rev) [] [] := by
  conv_lhs => unfold merge_bases_loop
  rfl

set_option maxHeartbeats 800000 in
/-- An empty commit list is not `interesting`, so the loop stops. -/
theorem lin_stage_loop4 (t1 t2 t3 : Nat) (rev : Bool) :
    merge_bases_loop (linear3 t1 t2 t3) 27
      (linWmid t1 t2 t3 false false false [] [] false rev) [] [] =
    .ok (linWmid t1 t2 t3 false false false [] [] false rev, []) := by
  conv_lhs => unfold merge_bases_loop
  rfl

set_option maxHeartbeats 4000000 in
/-- The merge-base pre-pass over the linear history parses the whole
chain, flags it PARENT1 and produces no merge base. -/
theorem lin_stage_mb (t1 t2 t3 : Nat) (rev : Bool) :
    merge_bases_many (linear3 t1 t2 t3) 30 (linW0 rev) 3 [] =
    .ok (linWmid t1 t2 t3 false false false [] [] false rev, []) := by
  have hmb0 : merge_bases_many (linear3 t1 t2 t3) 30 (linW0 rev) 3 [] =
      (match merge_bases_loop (linear3 t1 t2 t3) 30 (linM0 t3 rev) [3] [] with
       | .error e => .error e
       | .ok (walk, result) =>
         .ok (walk, result.foldl
           (fun acc oid =>
             if mb_and (getCommit walk oid).flags STALE = mb_zero then
               commit_list_insert_by_date walk oid acc
             else acc)
           [])) := by
    rfl
  rw [hmb0, lin_stage_loop1, lin_stage_loop2, lin_stage_loop3,
    lin_stage_loop4]
  rfl

set_option maxHeartbeats 800000 in
/-- Processing the pushed tip marks it seen and enqueues it by time. -/
theorem lin_stage_pc (t1 t2 t3 : Nat) (rev : Bool) :
    process_commit (linear3 t1 t2 t3) 30
      (linWmid t1 t2 t3 false false false [] [] false rev) 3 false =
    .ok (linWmid t1 t2 t3 false false true [(3, t3)] [] false rev) := by
  rfl

set_option maxHeartbeats 800000 in
/-- `prepare_walk` under plain TIME sorting: run the merge-base
pre-pass, process the tip, and start walking. -/
theorem lin_stage_prep_time (t1 t2 t3 : Nat) :
    prepare_walk (linear3 t1 t2 t3) 30 (linW0 false) =
    .ok (linWmid t1 t2 t3 false false true [(3, t3)] [] true false) := by
  conv_lhs => unfold prepare_walk
  simp only [show (linW0 false).one = some 3 from rfl,
    show (linW0 false).twos = ([] : List Nat) from rfl,
    lin_stage_mb t1 t2 t3 false,
    show (getCommit (linWmid t1 t2 t3 false false false [] [] false false)
      3).uninteresting = false from rfl,
    lin_stage_pc t1 t2 t3 false,
    show (linWmid t1 t2 t3 false false true [(3, t3)] [] false false).twos
      = ([] : List Nat) from rfl,
    List.foldlM_nil,
    show (pure (linWmid t1 t2 t3 false false true [(3, t3)] [] false false) :
      Except GitError Revwalk)
      = .ok (linWmid t1 t2 t3 false false true [(3, t3)] [] false false) from rfl,
    show (if (linWmid t1 t2 t3 false false true [(3, t3)] [] false
        false).sort_topo then
        topo_drain (linear3 t1 t2 t3) 30 30
          (linWmid t1 t2 t3 false false true [(3, t3)] [] false false)
      else .ok (linWmid t1 t2 t3 false false true [(3, t3)] [] false false))
      = .ok (linWmid t1 t2 t3 false false true [(3, t3)] [] false false)
      from rfl,
    show (if (linWmid t1 t2 t3 false false true [(3, t3)] [] false
        false).sort_reverse then
        reverse_drain (linear3 t1 t2 t3) 30 30
          (linWmid t1 t2 t3 false false true [(3, t3)] [] false false)
      else .ok (linWmid t1 t2 t3 false false true [(3, t3)] [] false false))
      = .ok (linWmid t1 t2 t3 false false true [(3, t3)] [] false false)
      from rfl]
  rfl

set_option maxHeartbeats 800000 in
/-- Reverse drain, first step: pop 3 (newest), enqueue its parent. -/
theorem lin_stage_d1 (t1 t2 t3 : Nat) :
    reverse_drain (linear3 t1 t2 t3) 30 30
      (linWmid t1 t2 t3 false false true [(3, t3)] [] false true) =
    reverse_drain (linear3 t1 t2 t3) 29 30
      (linWmid t1 t2 t3 false true true [(2, t2)] [3] false true) := by
  have hif : (if (linWmid t1 t2 t3 false false true [(3, t3)] [] false
        true).sort_topo
        then revwalk_next_toposort 30
          (linWmid t1 t2 t3 false false true [(3, t3)] [] false true)
        else revwalk_get_next_pre (linear3 t1 t2 t3) 30
          (linWmid t1 t2 t3 false false true [(3, t3)] [] false true)) =
      .ok (3, linWmid t1 t2 t3 false true true [(2, t2)] [] false true) := by
    rfl
  conv_lhs => unfold reverse_drain
  rw [hif]
  rfl

set_option maxHeartbeats 800000 in
/-- Reverse drain, second step: pop 2, enqueue the root. -/
theorem lin_stage_d2 (t1 t2 t3 : Nat) :
    reverse_drain (linear3 t1 t2 t3) 29 30
      (linWmid t1 t2 t3 false true true [(2, t2)] [3] false true) =
    reverse_drain (linear3 t1 t2 t3) 28 30
      (linWmid t1 t2 t3 true true true [(1, t1)] [2, 3] false true) := by
  have hif : (if (linWmid t1 t2 t3 false true true [(2, t2)] [3] false
        true).sort_topo
        then revwalk_next_toposort 30
          (linWmid t1 t2 t3 false true true [(2, t2)] [3] false true)
        else revwalk_get_next_pre (linear3 t1 t2 t3) 30
          (linWmid t1 t2 t3 false true true [(2, t2)] [3] false true)) =
      .ok (2, linWmid t1 t2 t3 true true true [(1, t1)] [3] false true) := by
    rfl
  conv_lhs => unfold reverse_drain
  rw [hif]
  rfl

set_option maxHeartbeats 800000 in
/-- Reverse drain, third step: pop the root commit. -/
theorem lin_stage_d3 (t1 t2 t3 : Nat) :
    reverse_drain (linear3 t1 t2 t3) 28 30
      (linWmid t1 t2 t3 true true true [(1, t1)] [2, 3] false true) =
    reverse_drain (linear3 t1 t2 t3) 27 30
      (linWmid t1 t2 t3 true true true [] [1, 2, 3] false true) := by
  have hif : (if (linWmid t1 t2 t3 true true true [(1, t1)] [2, 3] false
        true).sort_topo
        then revwalk_next_toposort 30
          (linWmid t1 t2 t3 true true true [(1, t1)] [2, 3] false true)
        else revwalk_get_next_pre (linear3 t1 t2 t3) 30
          (linWmid t1 t2 t3 true true true [(1, t1)] [2, 3] false true)) =
      .ok (1, linWmid t1 t2 t3 true true true [] [2, 3] false true) := by
    rfl
  conv_lhs => unfold reverse_drain
  rw [hif]
  rfl

set_option maxHeartbeats 800000 in
/-- Reverse drain, last step: the queue is empty, the drain returns. -/
theorem lin_stage_d4 (t1 t2 t3 : Nat) :
    reverse_drain (linear3 t1 t2 t3) 27 30
      (linWmid t1 t2 t3 true true true [] [1, 2, 3] false true) =
    .ok (linWmid t1 t2 t3 true true true [] [1, 2, 3] false true) := by
  have hif : (if (linWmid t1 t2 t3 true true true [] [1, 2, 3] false
        true).sort_topo
        then revwalk_next_toposort 30
          (linWmid t1 t2 t3 true true true [] [1, 2, 3] false true)
        else revwalk_get_next_pre (linear3 t1 t2 t3) 30
          (linWmid t1 t2 t3 true true true [] [1, 2, 3] false true)) =
      .error .EREVWALKOVER := by
    rfl
  conv_lhs => unfold reverse_drain
  rw [hif]

set_option maxHeartbeats 800000 in
/-- `prepare_walk` under TIME|REVERSE: after the pre-pass the whole
history is drained through the time queue onto the reverse iterator. -/
theorem lin_stage_prep_rev (t1 t2 t3 : Nat) :
    prepare_walk (linear3 t1 t2 t3) 30 (linW0 true) =
    .ok (linWmid t1 t2 t3 true true true [] [1, 2, 3] true true) := by
  conv_lhs => unfold prepare_walk
  simp only [show (linW0 true).one = some 3 from rfl,
    show (linW0 true).twos = ([] : List Nat) from rfl,
    lin_stage_mb t1 t2 t3 true,
    show (getCommit (linWmid t1 t2 t3 false false false [] [] false true)
      3).uninteresting = false from rfl,
    lin_stage_pc t1 t2 t3 true,
    show (linWmid t1 t2 t3 false false true [(3, t3)] [] false true).twos
      = ([] : List Nat) from rfl,
    List.foldlM_nil,
    show (pure (linWmid t1 t2 t3 false false true [(3, t3)] [] false true) :
      Except GitError Revwalk)
      = .ok (linWmid t1 t2 t3 false false true [(3, t3)] [] false true)
      from rfl,
    show (if (linWmid t1 t2 t3 false false true [(3, t3)] [] false
        true).sort_topo then
        topo_drain (linear3 t1 t2 t3) 30 30
          (linWmid t1 t2 t3 false false true [(3, t3)] [] false true)
      else .ok (linWmid t1 t2 t3 false false true [(3, t3)] [] false true))
      = .ok (linWmid t1 t2 t3 false false true [(3, t3)] [] false true)
      from rfl,
    show (if (linWmid t1 t2 t3 false false true [(3, t3)] [] false
        true).sort_reverse then
        reverse_drain (linear3 t1 t2 t3) 30 30
          (linWmid t1 t2 t3 false false true [(3, t3)] [] false true)
      else .ok (linWmid t1 t2 t3 false false true [(3, t3)] [] false true))
      = reverse_drain (linear3 t1 t2 t3) 30 30
          (linWmid t1 t2 t3 false false true [(3, t3)] [] false true)
      from rfl,
    lin_stage_d1, lin_stage_d2, lin_stage_d3, lin_stage_d4]
  rfl

set_option maxHeartbeats 800000 in
/-- First `git_revwalk_next` under TIME: prepare, then pop commit 3. -/
theorem lin_stage_next1_time (t1 t2 t3 : Nat) :
    git_revwalk_next (linear3 t1 t2 t3) 30 (linW0 false) =
    (.ok 3, linWmid t1 t2 t3 false true true [(2, t2)] [] true false) := by
  conv_lhs => unfold git_revwalk_next
  rw [if_pos (show ¬ ((linW0 false).walking = true) by decide),
    lin_stage_prep_time]
  rfl

set_option maxHeartbeats 800000 in
/-- Second TIME pop: commit 2, enqueueing the root. -/
theorem lin_stage_next2_time (t1 t2 t3 : Nat) :
    git_revwalk_next (linear3 t1 t2 t3) 30
      (linWmid t1 t2 t3 false true true [(2, t2)] [] true false) =
    (.ok 2, linWmid t1 t2 t3 true true true [(1, t1)] [] true false) := by
  rfl

set_option maxHeartbeats 800000 in
/-- Third TIME pop: the root commit. -/
theorem lin_stage_next3_time (t1 t2 t3 : Nat) :
    git_revwalk_next (linear3 t1 t2 t3) 30
      (linWmid t1 t2 t3 true true true [(1, t1)] [] true false) =
    (.ok 1, linWmid t1 t2 t3 true true true [] [] true false) := by
  rfl

set_option maxHeartbeats 800000 in
/-- Exhausted TIME queue: `GIT_EREVWALKOVER`, and the walker resets. -/
theorem lin_stage_next4_time (t1 t2 t3 : Nat) :
    git_revwalk_next (linear3 t1 t2 t3) 30
      (linWmid t1 t2 t3 true true true [] [] true false) =
    (.error .EREVWALKOVER,
      git_revwalk_reset (linWmid t1 t2 t3 true true true [] [] true false)) := by
  rfl

set_option maxHeartbeats 800000 in
/-- First `git_revwalk_next` under TIME|REVERSE: prepare (which drains
the whole walk), then pop the reverse iterator: the root comes first. -/
theorem lin_stage_next1_rev (t1 t2 t3 : Nat) :
    git_revwalk_next (linear3 t1 t2 t3) 30 (linW0 true) =
    (.ok 1, linWmid t1 t2 t3 true true true [] [2, 3] true true) := by
  conv_lhs => unfold git_revwalk_next
  rw [if_pos (show ¬ ((linW0 true).walking = true) by decide),
    lin_stage_prep_rev]
  rfl

set_option maxHeartbeats 800000 in
/-- Second REVERSE pop: commit 2. -/
theorem lin_stage_next2_rev (t1 t2 t3 : Nat) :
    git_revwalk_next (linear3 t1 t2 t3) 30
      (linWmid t1 t2 t3 true true true [] [2, 3] true true) =
    (.ok 2, linWmid t1 t2 t3 true true true [] [3] true true) := by
  rfl

set_option maxHeartbeats 800000 in
/-- Third REVERSE pop: commit 3. -/
theorem lin_stage_next3_rev (t1 t2 t3 : Nat) :
    git_revwalk_next (linear3 t1 t2 t3) 30
      (linWmid t1 t2 t3 true true true [] [3] true true) =
    (.ok 3, linWmid t1 t2 t3 true true true [] [] true true) := by
  rfl

set_option maxHeartbeats 800000 in
/-- Exhausted reverse iterator: `GIT_EREVWALKOVER` and a reset. -/
theorem lin_stage_next4_rev (t1 t2 t3 : Nat) :
    git_revwalk_next (linear3 t1 t2 t3) 30
      (linWmid t1 t2 t3 true true true [] [] true true) =
    (.error .EREVWALKOVER,
      git_revwalk_reset (linWmid t1 t2 t3 true true true [] [] true true)) := by
  rfl

set_option maxHeartbeats 1600000 in
/-- C7: for the linear history 1 ← 2 ← 3 with times t1 < t2 < t3,
pushing 3 yields 3, 2, 1 then the Over sentinel under TIME sorting,
and 1, 2, 3 then Over under TIME|REVERSE. -/
theorem linear_walk_time_and_reverse (t1 t2 t3 : Nat)
    (h12 : t1 < t2) (h23 : t2 < t3) :
    (git_revwalk_push (git_revwalk_sorting git_revwalk_new true false
        false) 3).map
      (fun w => revwalk_collect (linear3 t1 t2 t3) 30 10 w) =
      .ok ([3, 2, 1], .EREVWALKOVER) ∧
    (git_revwalk_push (git_revwalk_sorting git_revwalk_new true false
        true) 3).map
      (fun w => revwalk_collect (linear3 t1 t2 t3) 30 10 w) =
      .ok ([1, 2, 3], .EREVWALKOVER) := by
  have hc1f : revwalk_collect (linear3 t1 t2 t3) 30 10 (linW0 false) =
      (3 :: (revwalk_collect (linear3 t1 t2 t3) 30 9
          (linWmid t1 t2 t3 false true true [(2, t2)] [] true false)).1,
        (revwalk_collect (linear3 t1 t2 t3) 30 9
          (linWmid t1 t2 t3 false true true [(2, t2)] [] true false)).2) := by
    conv_lhs => unfold revwalk_collect
    rw [lin_stage_next1_time]
  have hc2f : revwalk_collect (linear3 t1 t2 t3) 30 9
      (linWmid t1 t2 t3 false true true [(2, t2)] [] true false) =
      (2 :: (revwalk_collect (linear3 t1 t2 t3) 30 8
          (linWmid t1 t2 t3 true true true [(1, t1)] [] true false)).1,
        (revwalk_collect (linear3 t1 t2 t3) 30 8
          (linWmid t1 t2 t3 true true true [(1, t1)] [] true false)).2) := by
    conv_lhs => unfold revwalk_collect
    rw [lin_stage_next2_time]
  have hc3f : revwalk_collect (linear3 t1 t2 t3) 30 8
      (linWmid t1 t2 t3 true true true [(1, t1)] [] true false) =
      (1 :: (revwalk_collect (linear3 t1 t2 t3) 30 7
          (linWmid t1 t2 t3 true true true [] [] true false)).1,
        (revwalk_collect (linear3 t1 t2 t3) 30 7
          (linWmid t1 t2 t3 true true true [] [] true false)).2) := by
    conv_lhs => unfold revwalk_collect
    rw [lin_stage_next3_time]
  have hc4f : revwalk_collect (linear3 t1 t2 t3) 30 7
      (linWmid t1 t2 t3 true true true [] [] true false) =
      ([], .EREVWALKOVER) := by
    conv_lhs => unfold revwalk_collect
    rw [lin_stage_next4_time]
  have hcolf : revwalk_collect (linear3 t1 t2 t3) 30 10 (linW0 false) =
      ([3, 2, 1], .EREVWALKOVER) := by
    rw [hc1f, hc2f, hc3f, hc4f]
  have hc1t : revwalk_collect (linear3 t1 t2 t3) 30 10 (linW0 true) =
      (1 :: (revwalk_collect (linear3 t1 t2 t3) 30 9
          (linWmid t1 t2 t3 true true true [] [2, 3] true true)).1,
        (revwalk_collect (linear3 t1 t2 t3) 30 9
          (linWmid t1 t2 t3 true true true [] [2, 3] true true)).2) := by
    conv_lhs => unfold revwalk_collect
    rw [lin_stage_next1_rev]
  have hc2t : revwalk_collect (linear3 t1 t2 t3) 30 9
      (linWmid t1 t2 t3 true true true [] [2, 3] true true) =
      (2 :: (revwalk_collect (linear3 t1 t2 t3) 30 8
          (linWmid t1 t2 t3 true true true [] [3] true true)).1,
        (revwalk_collect (linear3 t1 t2 t3) 30 8
          (linWmid t1 t2 t3 true true true [] [3] true true)).2) := by
    conv_lhs => unfold revwalk_collect
    rw [lin_stage_next2_rev]
  have hc3t : revwalk_collect (linear3 t1 t2 t3) 30 8
      (linWmid t1 t2 t3 true true true [] [3] true true) =
      (3 :: (revwalk_collect (linear3 t1 t2 t3) 30 7
          (linWmid t1 t2 t3 true true true [] [] true true)).1,
        (revwalk_collect (linear3 t1 t2 t3) 30 7
          (linWmid t1 t2 t3 true true true [] [] true true)).2) := by
    conv_lhs => unfold revwalk_collect
    rw [lin_stage_next3_rev]
  have hc4t : revwalk_collect (linear3 t1 t2 t3) 30 7
      (linWmid t1 t2 t3 true true true [] [] true true) =
      ([], .EREVWALKOVER) := by
    conv_lhs => unfold revwalk_collect
    rw [lin_stage_next4_rev]
  have hcolt : revwalk_collect (linear3 t1 t2 t3) 30 10 (linW0 true) =
      ([1, 2, 3], .EREVWALKOVER) := by
    rw [hc1t, hc2t, hc3t, hc4t]
  refine ⟨?_, ?_⟩
  · rw [lin_stage_push false]
    simp only [Except.map]
    rw [hcolf]
  · rw [lin_stage_push true]
    simp only [Except.map]
    rw [hcolt]

/-- C7 witness: times 10 < 20 < 30 through the theorem. -/
theorem linear_walk_time_and_reverse_witness :
    (git_revwalk_push (git_revwalk_sorting git_revwalk_new true false
        false) 3).map
      (fun w => revwalk_collect (linear3 10 20 30) 30 10 w) =
      .ok ([3, 2, 1], .EREVWALKOVER) ∧
    (git_revwalk_push (git_revwalk_sorting git_revwalk_new true false
        true) 3).map
      (fun w => revwalk_collect (linear3 10 20 30) 30 10 w) =
      .ok ([1, 2, 3], .EREVWALKOVER) :=
  linear_walk_time_and_reverse 10 20 30 (by decide) (by decide)

/-- C10 (code bug): on the criss-cross graph the surviving merge bases
are commits 1 (time 10) and 2 (time 20), and `git_merge_base` returns
1 — the *older*, first-discovered base, not the newest — because
`commit_list_insert_by_date` never reorders (its comparator is 0/1
valued, see `commit_list_insert_by_date_appends`). -/
theorem merge_base_returns_first_not_newest :
    git_merge_base crisscross 40 5 6 = .ok 1 ∧
    (merge_bases_many crisscross 40
        ⟨[(6, freshCommit 6), (5, freshCommit 5)], [], [], [], [], none,
          [], false, false, false, false⟩ 5 [6]).map Prod.snd =
      .ok [1, 2] ∧
    crisscross 1 = some ⟨OType.commit, [], 10⟩ ∧
    crisscross 2 = some ⟨OType.commit, [], 20⟩ := by
  exact ⟨rfl, rfl, rfl, rfl⟩

/-- C8 counterexample: on a platform that does not trust the exec bit,
an entry whose mode changed from 100755 to 100644 with an unchanged
OID is classified UNMODIFIED although the two modes differ - the
comparison normalizes the exec bits away. -/
theorem maybe_modified_exec_bit_unmodified :
    maybe_modified ⟨true, false, false, true, false⟩ false true true true
      (fun _ => none)
      ⟨0o100755, 7, 10, 1, 2, 3, 4, 5, 6, ⟨false, false⟩, 1⟩
      ⟨0o100644, 7, 10, 1, 2, 3, 4, 5, 6, ⟨false, false⟩, 1⟩ =
      .classified .UNMODIFIED ∧
    (0o100755 : Nat) ≠ 0o100644 := by
  exact ⟨rfl, by decide⟩

/-- C8 amended: when the pathspec matches, the assume-unchanged
capability is off, the old entry is not skip-worktree, and the new
entry has a known OID (or is not a workdir entry), `maybe_modified`
classifies the pair UNMODIFIED iff the OIDs are equal and the
*effective* modes - exec bits cleared unless trusted, symlinks
promoted on symlink-less platforms - are equal. -/
theorem maybe_modified_unmodified_iff (caps : DiffCaps)
    (ign wk sub : Bool) (workdir_hash : Nat → Option Nat)
    (oitem nitem : IndexEntry)
    (hau : caps.assume_unchanged = false)
    (hsw : oitem.flags_ext.skip_worktree = false)
    (hoid : ¬ (nitem.oid = 0 ∧ wk = true)) :
    maybe_modified caps ign wk true sub workdir_hash oitem nitem =
      .classified .UNMODIFIED ↔
    (oitem.oid = nitem.oid ∧
      mm_omode caps oitem.mode = mm_nmode caps oitem.mode nitem.mode) := by
  unfold maybe_modified
  simp only [hau, hsw, Bool.false_eq_true, not_true, if_false, ite_false]
  split_ifs with h1 h2
  · exact iff_of_false id (fun h => h1 (congrArg GIT_MODE_TYPE h.2))
  · exact iff_of_true rfl h2
  · exact iff_of_false (by simp) h2

/-- C8 amended, witness: index-to-index comparison (known OIDs) of two
entries with equal OIDs and equal modes on a fully-capable platform. -/
theorem maybe_modified_unmodified_iff_witness :
    (maybe_modified ⟨true, false, true, true, true⟩ false false true true
        (fun _ => none)
        ⟨0o100644, 7, 10, 1, 2, 3, 4, 5, 6, ⟨false, false⟩, 1⟩
        ⟨0o100644, 7, 10, 1, 2, 3, 4, 5, 6, ⟨false, false⟩, 1⟩ =
        .classified .UNMODIFIED ↔
      ((⟨0o100644, 7, 10, 1, 2, 3, 4, 5, 6, ⟨false, false⟩, 1⟩ :
          IndexEntry).oid =
        (⟨0o100644, 7, 10, 1, 2, 3, 4, 5, 6, ⟨false, false⟩, 1⟩ :
          IndexEntry).oid ∧
        mm_omode ⟨true, false, true, true, true⟩ 0o100644 =
          mm_nmode ⟨true, false, true, true, true⟩ 0o100644 0o100644)) :=
  maybe_modified_unmodified_iff ⟨true, false, true, true, true⟩ false false
    true (fun _ => none)
    ⟨0o100644, 7, 10, 1, 2, 3, 4, 5, 6, ⟨false, false⟩, 1⟩
    ⟨0o100644, 7, 10, 1, 2, 3, 4, 5, 6, ⟨false, false⟩, 1⟩
    rfl rfl (by decide)
